import Mathlib

/-!
Verification development for the `grid_engine` repository's terrain disk
storage (`src/native/common/src/world.rs`) and chunk range iteration
(`src/common/src/world/iteration.rs`, `src/common/src/world/mod.rs`).

The Rust code is shallowly embedded: byte memory (the two memory-mapped
files) is a total function `Nat → Nat` holding byte values, machine
integers are `Nat`/`Int` with explicit wrapping where the Rust semantics
wraps, and fallible operations return `Except Unit`.
-/

set_option maxRecDepth 8000

namespace GridEngine

/-- Byte-addressed memory: a memory-mapped file's contents. -/
abbrev Mem := Nat → Nat

/-- All-zero memory: the contents of a freshly zero-filled file. -/
def zeroMem : Mem := fun _ => 0

/-- Read `n` bytes little-endian starting at offset `o`
(the semantics of `u64::from_le_bytes` / `u16::from_le_bytes` on a slice). -/
def readLE (m : Mem) (o : Nat) : Nat → Nat
  | 0 => 0
  | n + 1 => m o + 256 * readLE m (o + 1) n

/-- Reads `u64::from_le_bytes` of the 8 bytes at offset `o`. -/
def readU64 (m : Mem) (o : Nat) : Nat := readLE m o 8

/-- Reads `u16::from_le_bytes` of the 2 bytes at offset `o`. -/
def readU16 (m : Mem) (o : Nat) : Nat := readLE m o 2

/-- Write the `len` low-order bytes of `v` little-endian at offset `o`
(the semantics of `clone_from_slice(&v.to_le_bytes())`). -/
def writeBytesLE (m : Mem) (o v len : Nat) : Mem :=
  fun i => if o ≤ i ∧ i < o + len then (v >>> (8 * (i - o))) % 256 else m i

/-- Write a `u64` little-endian at offset `o`. -/
def writeU64 (m : Mem) (o v : Nat) : Mem := writeBytesLE m o v 8

theorem readLE_zeroMem (o n : Nat) : readLE zeroMem o n = 0 := by
  induction n generalizing o with
  | zero => rfl
  | succ k ih => simp [readLE, zeroMem, ih]

theorem readU64_zeroMem (o : Nat) : readU64 zeroMem o = 0 := readLE_zeroMem o 8

/-- Reading depends only on the bytes of the region read. -/
theorem readLE_congr {m1 m2 : Mem} {o n : Nat}
    (h : ∀ i, i < n → m1 (o + i) = m2 (o + i)) :
    readLE m1 o n = readLE m2 o n := by
  induction n generalizing o with
  | zero => rfl
  | succ k ih =>
    have h0 := h 0 (Nat.succ_pos k)
    simp only [Nat.add_zero] at h0
    have hrest : ∀ i, i < k → m1 (o + 1 + i) = m2 (o + 1 + i) := by
      intro i hi
      have := h (i + 1) (by omega)
      simpa [Nat.add_assoc, Nat.add_comm 1 i] using this
    simp [readLE, h0, ih hrest]

theorem writeBytesLE_out {m : Mem} {o v len i : Nat}
    (h : i < o ∨ o + len ≤ i) : writeBytesLE m o v len i = m i := by
  unfold writeBytesLE
  rw [if_neg]
  omega

/-- Reading a region that is fully described byte-by-byte as the
little-endian bytes of `v` yields `v` modulo `256 ^ n`. -/
theorem readLE_of_bytes (M : Mem) :
    ∀ n o v, (∀ i, i < n → M (o + i) = (v >>> (8 * i)) % 256) →
    readLE M o n = v % 256 ^ n := by
  intro n
  induction n with
  | zero =>
    intro o v _
    simp [readLE, Nat.mod_one]
  | succ k ih =>
    intro o v h
    have h0 := h 0 (Nat.succ_pos k)
    simp only [Nat.add_zero, Nat.mul_zero, Nat.shiftRight_zero] at h0
    have hrest : ∀ i, i < k → M (o + 1 + i) = ((v >>> 8) >>> (8 * i)) % 256 := by
      intro i hi
      have hb := h (i + 1) (by omega)
      rw [← Nat.shiftRight_add]
      have harg : o + (i + 1) = o + 1 + i := by omega
      have hsh : 8 * (i + 1) = 8 + 8 * i := by omega
      rw [harg, hsh] at hb
      exact hb
    have hdiv : v >>> 8 = v / 256 := by
      rw [Nat.shiftRight_eq_div_pow]
    have := ih (o + 1) (v >>> 8) hrest
    rw [readLE, h0, this, hdiv]
    rw [pow_succ' 256 k, Nat.mod_mul]

theorem readLE_writeBytesLE_same (m : Mem) (o v n : Nat) :
    readLE (writeBytesLE m o v n) o n = v % 256 ^ n := by
  apply readLE_of_bytes
  intro i hi
  unfold writeBytesLE
  rw [if_pos (by omega)]
  have harg : o + i - o = i := by omega
  rw [harg]

/-- Reading a `u64` back from where it was written returns the value,
provided it fits in 64 bits. -/
theorem readU64_writeU64 (m : Mem) (o v : Nat) (hv : v < 2 ^ 64) :
    readU64 (writeU64 m o v) o = v := by
  unfold readU64 writeU64
  rw [readLE_writeBytesLE_same]
  have : (256 : Nat) ^ 8 = 2 ^ 64 := by norm_num
  rw [this, Nat.mod_eq_of_lt hv]

/-- Reading a region disjoint from a written region sees the old memory. -/
theorem readLE_writeBytesLE_disjoint (m : Mem) (o v len o' n : Nat)
    (h : o + len ≤ o' ∨ o' + n ≤ o) :
    readLE (writeBytesLE m o v len) o' n = readLE m o' n := by
  apply readLE_congr
  intro i hi
  apply writeBytesLE_out
  omega

theorem readU64_writeU64_disjoint (m : Mem) (o v o' : Nat)
    (h : o + 8 ≤ o' ∨ o' + 8 ≤ o) :
    readU64 (writeU64 m o v) o' = readU64 m o' := by
  unfold readU64 writeU64
  exact readLE_writeBytesLE_disjoint m o v 8 o' 8 h

/-! ## Constants from `src/native/common/src/world.rs` -/

/-- A chunk is 16x16x16 blocks, two bytes per block. -/
def CHUNK_LENGTH : Nat := 16 * 16 * 16 * 2

/-- A node contains 256 eight-byte pointers. -/
def NODE_LENGTH : Nat := 256 * 8

/-- The sentinel bit stored with every pointer (`0x8000_0000_0000_0000`). -/
def SENTINEL : Nat := 0x8000000000000000

/-! ## Index nodes (`IndexNode::get_pointer` / `IndexNode::set_pointer`) -/

namespace IndexNode

/-- Embeds `IndexNode::get_pointer`: read the `u64` at `key * 8` inside the node's
region; `None` iff it is zero, else the value with the sentinel bit cleared
(`pointer & !0x8000_0000_0000_0000`). -/
def get_pointer (m : Mem) (fileOffset key : Nat) : Option Nat :=
  let pointer := readU64 m (fileOffset + key * 8)
  if pointer ≠ 0 then some (pointer &&& 0x7FFFFFFFFFFFFFFF) else none

/-- Embeds `IndexNode::set_pointer`: write `address | 0x8000_0000_0000_0000` at the
`u64` slot `key * 8` inside the node's region. -/
def set_pointer (m : Mem) (fileOffset key address : Nat) : Mem :=
  writeU64 m (fileOffset + key * 8) (address ||| SENTINEL)

end IndexNode

theorem sentinel_or_lt {v : Nat} (hv : v < 2 ^ 63) : v ||| SENTINEL < 2 ^ 64 := by
  apply Nat.or_lt_two_pow (n := 64)
  · exact lt_trans hv (by norm_num)
  · norm_num [SENTINEL]

theorem sentinel_or_ne_zero (v : Nat) : v ||| SENTINEL ≠ 0 := by
  intro h
  have hb : (v ||| SENTINEL).testBit 63 = true := by
    rw [Nat.testBit_or]
    have : SENTINEL.testBit 63 = true := by decide
    simp [this]
  rw [h] at hb
  simp at hb

theorem sentinel_clear {v : Nat} (hv : v < 2 ^ 63) :
    (v ||| SENTINEL) &&& 0x7FFFFFFFFFFFFFFF = v := by
  rw [Nat.and_distrib_right]
  have h1 : v &&& 0x7FFFFFFFFFFFFFFF = v := by
    have : (0x7FFFFFFFFFFFFFFF : Nat) = 2 ^ 63 - 1 := by norm_num
    rw [this]
    exact Nat.and_pow_two_sub_one_of_lt_two_pow hv
  have h2 : SENTINEL &&& 0x7FFFFFFFFFFFFFFF = 0 := by decide
  rw [h1, h2, Nat.or_zero]

/-- A slot whose stored value is zero yields no pointer. -/
theorem get_pointer_eq_none {m : Mem} {off key : Nat}
    (h : readU64 m (off + key * 8) = 0) :
    IndexNode.get_pointer m off key = none := by
  unfold IndexNode.get_pointer
  simp [h]

/-- A slot storing a sentinel-tagged value yields the untagged pointer. -/
theorem get_pointer_eq_some {m : Mem} {off key v : Nat}
    (h : readU64 m (off + key * 8) = v ||| SENTINEL) (hv : v < 2 ^ 63) :
    IndexNode.get_pointer m off key = some v := by
  unfold IndexNode.get_pointer
  simp only [h]
  rw [if_pos (sentinel_or_ne_zero v), sentinel_clear hv]

/-- Reading back the slot written by `set_pointer`. -/
theorem get_pointer_set_pointer (m : Mem) (off key v : Nat) (hv : v < 2 ^ 63) :
    IndexNode.get_pointer (IndexNode.set_pointer m off key v) off key = some v := by
  apply get_pointer_eq_some _ hv
  unfold IndexNode.set_pointer
  exact readU64_writeU64 m _ _ (sentinel_or_lt hv)

/-! ## The storage state (`TerrainDiskStorage`)

The state carries the two files' lengths and memory-mapped contents.
`growCount` counts file-growth operations (`File::set_len` calls) so that
I/O failures can be injected deterministically: a `GrowOracle` says whether
the n-th growth operation fails, modelling disk-full/permission errors. -/

structure TerrainDiskStorage where
  indexLen : Nat
  chunkLen : Nat
  indexMem : Mem
  chunkMem : Mem
  growCount : Nat

/-- Failure model for file growth: `g n = true` means the n-th growth fails. -/
abbrev GrowOracle := Nat → Bool

/-- The oracle under which no I/O operation fails. -/
def noFail : GrowOracle := fun _ => false

/-- One recorded `set_pointer` performed during `get_or_create_chunk_address`:
slot `digit` of the node at `parent` was set to `target`
(`toChunk` tells whether the target is a chunk pointer or a node pointer). -/
structure PtrWrite where
  parent : Nat
  digit : Nat
  target : Nat
  toChunk : Bool

namespace TerrainDiskStorage

/-- Embeds `TerrainDiskStorage::initialize`: open the two files; a zero-length file
is grown (zero-filled) to hold one root node / one chunk record. -/
def initStorage (indexBytes : Mem) (indexFileLen : Nat)
    (chunkBytes : Mem) (chunkFileLen : Nat) : TerrainDiskStorage :=
  { indexLen := if indexFileLen = 0 then NODE_LENGTH else indexFileLen
    chunkLen := if chunkFileLen = 0 then CHUNK_LENGTH else chunkFileLen
    indexMem := indexBytes
    chunkMem := chunkBytes
    growCount := 0 }

/-- Embeds `TerrainDiskStorage::new_node`: the new node is carved from the end of
the index file; the file is grown by `NODE_LENGTH` (zero-filled). -/
def new_node (g : GrowOracle) (s : TerrainDiskStorage) :
    Except Unit (Nat × TerrainDiskStorage) :=
  if g s.growCount then .error () else
    .ok (s.indexLen,
      { s with indexLen := s.indexLen + NODE_LENGTH, growCount := s.growCount + 1 })

/-- Embeds `TerrainDiskStorage::new_chunk`: the new chunk record is carved from the
end of the chunk file, which is grown by `CHUNK_LENGTH`; the returned
pointer is the byte offset shifted right by 4. -/
def new_chunk (g : GrowOracle) (s : TerrainDiskStorage) :
    Except Unit (Nat × TerrainDiskStorage) :=
  let pointer := if s.chunkLen = 1 then 0 else s.chunkLen
  if g s.growCount then .error () else
    .ok (pointer >>> 4,
      { s with chunkLen := pointer + CHUNK_LENGTH, growCount := s.growCount + 1 })

/-- Record a pointer in a node slot of the index mapping
(`get_node_mut` + `IndexNode::set_pointer`). -/
def setNodePointer (s : TerrainDiskStorage) (node digit target : Nat) :
    TerrainDiskStorage :=
  { s with indexMem := IndexNode.set_pointer s.indexMem node digit target }

/-- Byte `j` of `key.to_le_bytes()`. -/
def keyByte (key j : Nat) : Nat := (key >>> (8 * j)) % 256

theorem keyByte_lt (key j : Nat) : keyByte key j < 256 :=
  Nat.mod_lt _ (by norm_num)

/-- The `for key in keys` loop of `get_or_create_chunk_address`: walk the
digit list from `node`, creating missing nodes; `IndexNode::load` rejects a
node offset that is not 256-byte aligned. Returns the final node, the state
after all writes, and the log of recorded pointer writes. -/
def createWalk (g : GrowOracle) :
    TerrainDiskStorage → Nat → List Nat →
    (Except Unit Nat) × TerrainDiskStorage × List PtrWrite
  | s, node, [] => (.ok node, s, [])
  | s, node, d :: rest =>
    if node &&& 0xFF = 0 then
      match IndexNode.get_pointer s.indexMem node d with
      | some a => createWalk g s a rest
      | none =>
        match new_node g s with
        | .error e => (.error e, s, [])
        | .ok (a, s1) =>
          match createWalk g (setNodePointer s1 node d a) a rest with
          | (r, s3, log) => (r, s3, ⟨node, d, a, false⟩ :: log)
    else (.error (), s, [])

/-- Embeds `TerrainDiskStorage::get_or_create_chunk_address`: the traversal digits
are bytes 3,4,5,6 of the little-endian key, the chunk digit is byte 7. -/
def get_or_create_chunk_address (g : GrowOracle) (s : TerrainDiskStorage)
    (key : Nat) :
    (Except Unit (Bool × Nat)) × TerrainDiskStorage × List PtrWrite :=
  match createWalk g s 0 [keyByte key 3, keyByte key 4, keyByte key 5, keyByte key 6] with
  | (.error e, s1, log) => (.error e, s1, log)
  | (.ok node, s1, log) =>
    if node &&& 0xFF = 0 then
      match IndexNode.get_pointer s1.indexMem node (keyByte key 7) with
      | some a => (.ok (false, a), s1, log)
      | none =>
        match new_chunk g s1 with
        | .error e => (.error e, s1, log)
        | .ok (a, s2) =>
          (.ok (true, a), setNodePointer s2 node (keyByte key 7) a,
            log ++ [⟨node, keyByte key 7, a, true⟩])
    else (.error (), s1, log)

/-- The read-only walk of `get_chunk_address`. -/
def getWalk (m : Mem) : Nat → List Nat → Except Unit (Option Nat)
  | node, [] => .ok (some node)
  | node, d :: rest =>
    if node &&& 0xFF = 0 then
      match IndexNode.get_pointer m node d with
      | some a => getWalk m a rest
      | none => .ok none
    else .error ()

/-- Embeds `TerrainDiskStorage::get_chunk_address`. -/
def get_chunk_address (s : TerrainDiskStorage) (key : Nat) :
    Except Unit (Option Nat) :=
  match getWalk s.indexMem 0 [keyByte key 3, keyByte key 4, keyByte key 5, keyByte key 6] with
  | .error e => .error e
  | .ok none => .ok none
  | .ok (some node) =>
    if node &&& 0xFF = 0 then
      match IndexNode.get_pointer s.indexMem node (keyByte key 7) with
      | some a => .ok (some a)
      | none => .ok none
    else .error ()

end TerrainDiskStorage

/-! ## The spatial key encoder (`TerrainDiskStorage::create_chunk_key`) -/

/-- The shift/mask pairs of `spread_bits`' `magic_numbers` array. -/
def SPREAD_STEPS : List (Nat × Nat) :=
  [(32, 0x00FF00000000FFFF), (16, 0x00FF0000FF0000FF), (8, 0xF00F00F00F00F00F),
   (4, 0x30C30C30C30C30C3), (2, 0x9249249249249249)]

/-- The `for (shift, mask) in &magic_numbers` loop:
`input = (input | (input << shift)) & mask`, in `u64` arithmetic
(the shift wraps modulo `2 ^ 64`). -/
def spreadCore (t : Nat) : Nat :=
  SPREAD_STEPS.foldl (fun x sm => (x ||| ((x <<< sm.1) % 2 ^ 64)) &&& sm.2) t

/-- Embeds `spread_bits`: the two's-complement cast `input as u64` followed by
`& 0x000000000000FFFF`, then the shift/mask loop. -/
def spread_bits (input : Int) : Nat :=
  spreadCore (((input % 2 ^ 64).toNat) &&& 0xFFFF)

/-- Embeds `TerrainDiskStorage::create_chunk_key`:
`(x << 2) | (y << 1) | z` over the spread axes, in `u64` arithmetic. -/
def create_chunk_key (x y z : Int) : Nat :=
  (((spread_bits x <<< 2) % 2 ^ 64) ||| ((spread_bits y <<< 1) % 2 ^ 64)) ||| spread_bits z

/-! ## Chunk payloads (`TerrainChunkData`) and the public storage API -/

/-- Embeds `TerrainChunkData`: a chunk's block array (4096 `u16` values, modelled
as a total function), the byte address of its backing region, and its
coordinates. -/
structure TerrainChunkData where
  storage : Nat → Nat
  address : Nat
  x : Int
  y : Int
  z : Int

namespace TerrainChunkData

/-- Embeds `TerrainChunkData::create`: zeroed block data; the byte address is the
chunk pointer shifted left by 4. -/
def create (x y z : Int) (address : Nat) : TerrainChunkData :=
  { storage := fun _ => 0, address := address <<< 4, x := x, y := y, z := z }

/-- Embeds `TerrainChunkData::get_address_in_file`. -/
def get_address_in_file (c : TerrainChunkData) : Nat := c.address

end TerrainChunkData

namespace TerrainDiskStorage

/-- Embeds `TerrainDiskStorage::load_chunk`: copy `CHUNK_LENGTH` bytes starting at
`chunk_address.0` — the raw chunk pointer passed alongside the payload, not
the payload's shifted `address` field — out of the chunk mapping, two bytes
per block, little-endian. Indexing past the mapping is a failure. -/
def load_chunk (s : TerrainDiskStorage) (c : TerrainChunkData)
    (chunk_address : Nat) : Except Unit TerrainChunkData :=
  if chunk_address + CHUNK_LENGTH ≤ s.chunkLen then
    .ok { c with storage := fun i => readU16 s.chunkMem (chunk_address + 2 * i) }
  else .error ()

/-- The byte written at offset `i - a` when `save_chunk` copies the block
array `st` to the region starting at byte `a`. -/
def writeChunkData (m : Mem) (a : Nat) (st : Nat → Nat) : Mem :=
  fun i =>
    if a ≤ i ∧ i < a + CHUNK_LENGTH then (st ((i - a) / 2) >>> (8 * ((i - a) % 2))) % 256
    else m i

/-- Embeds `TerrainDiskStorage::save_chunk`: copy the payload's blocks into its
backing region of the chunk mapping, little-endian. -/
def save_chunk (s : TerrainDiskStorage) (c : TerrainChunkData) :
    Except Unit TerrainDiskStorage :=
  if c.address + CHUNK_LENGTH ≤ s.chunkLen then
    .ok { s with chunkMem := writeChunkData s.chunkMem c.address c.storage }
  else .error ()

/-- Embeds `TerrainDiskStorage::get_chunk`. -/
def get_chunk (s : TerrainDiskStorage) (x y z : Int) :
    Except Unit (Option TerrainChunkData) :=
  match get_chunk_address s (create_chunk_key x y z) with
  | .error e => .error e
  | .ok none => .ok none
  | .ok (some a) =>
    match load_chunk s (TerrainChunkData.create x y z a) a with
    | .error e => .error e
    | .ok c => .ok (some c)

/-- Embeds `TerrainDiskStorage::get_or_create_chunk`. -/
def get_or_create_chunk (g : GrowOracle) (s : TerrainDiskStorage)
    (x y z : Int) :
    (Except Unit (Bool × TerrainChunkData)) × TerrainDiskStorage :=
  match get_or_create_chunk_address g s (create_chunk_key x y z) with
  | (.error e, s1, _) => (.error e, s1)
  | (.ok (created, a), s1, _) =>
    match load_chunk s1 (TerrainChunkData.create x y z a) a with
    | .error e => (.error e, s1)
    | .ok c => (.ok (created, c), s1)

/-- Closing the store and reopening it on the same backing files. On a
crash-free close the dirty pages of both memory mappings are written back
by the operating system, so the reopened store sees the mapped contents. -/
def reopen (s : TerrainDiskStorage) : TerrainDiskStorage :=
  initStorage s.indexMem s.indexLen s.chunkMem s.chunkLen

end TerrainDiskStorage

/-- A store together with the durable (on-disk) contents of its two files.
Writes through the memory mappings are volatile until flushed; a flush
makes a mapping's bytes durable. -/
structure StorageSystem where
  store : TerrainDiskStorage
  indexDisk : Mem
  chunkDisk : Mem

/-- Embeds `TerrainDiskStorage::flush_index`, i.e. `self.index_memory.flush()` — force
the index mapping to stable storage; the chunk mapping is not flushed. -/
def flush_index (w : StorageSystem) : StorageSystem :=
  { w with indexDisk := w.store.indexMem }

/-- A store opened on two fresh (empty) files. -/
def freshStorage : TerrainDiskStorage :=
  TerrainDiskStorage.initStorage zeroMem 0 zeroMem 0

/-! ## Chunk range iteration (`src/common/src/world/iteration.rs`) -/

/-- Embeds `ChunkCoordinate`, i.e. `nalgebra::Vector3<i16>`. -/
structure ChunkCoordinate where
  x : Int
  y : Int
  z : Int
deriving DecidableEq, Repr

namespace ChunkCoordinate

/-- Componentwise minimum (`Vector3::inf`). -/
def inf (a b : ChunkCoordinate) : ChunkCoordinate :=
  ⟨min a.x b.x, min a.y b.y, min a.z b.z⟩

/-- Componentwise `(a - b).abs()`. -/
def absSub (a b : ChunkCoordinate) : ChunkCoordinate :=
  ⟨|a.x - b.x|, |a.y - b.y|, |a.z - b.z|⟩

/-- Componentwise addition. -/
def add (a b : ChunkCoordinate) : ChunkCoordinate :=
  ⟨a.x + b.x, a.y + b.y, a.z + b.z⟩

end ChunkCoordinate

/-- Embeds `ChunkRange`: a root chunk and a (non-negative) size. -/
structure ChunkRange where
  root_chunk : ChunkCoordinate
  size : ChunkCoordinate

namespace ChunkRange

/-- Embeds `ChunkRange::from_end_points`. -/
def from_end_points (first second : ChunkCoordinate) : ChunkRange :=
  { root_chunk := first.inf second, size := first.absSub second }

/-- Embeds `ChunkRange::get_near_and_far`. -/
def get_near_and_far (r : ChunkRange) : ChunkCoordinate × ChunkCoordinate :=
  (r.root_chunk, r.root_chunk.add r.size)

/-- The Rust iterator `a..b` as a list (empty when `b ≤ a`). -/
def rangeList (a b : Int) : List Int :=
  (List.range (b - a).toNat).map fun i => a + i

/-- Embeds `ChunkRange::iter_xyz`:
`(near.x..far.x).cartesian_product(near.y..far.y).cartesian_product(near.z..far.z)`,
so x varies outermost and z innermost. -/
def iter_xyz (r : ChunkRange) : List ChunkCoordinate :=
  let nf := get_near_and_far r
  (rangeList nf.1.x nf.2.x).flatMap fun a =>
    (rangeList nf.1.y nf.2.y).flatMap fun b =>
      (rangeList nf.1.z nf.2.z).map fun c => ⟨a, b, c⟩

end ChunkRange

/-- Per `GridWorld::load_chunk_range`, visits (and loads) exactly the coordinates
produced by `range.iter_xyz()`, in that order. -/
def load_chunk_range_visits (r : ChunkRange) : List ChunkCoordinate :=
  r.iter_xyz

/-! ## Claim theorems -/

/-- C7: for a digit `d` in `[0, 256)` and any index node, `get_pointer d`
reads the 8-byte little-endian value at byte offset `d * 8` within the
node's region and returns `none` exactly when that value is zero, otherwise
the value with the sentinel bit cleared; and after `set_pointer d off` with
`off < 2 ^ 63`, `get_pointer d` returns `some off`, even when `off = 0`. -/
theorem get_pointer_spec (m : Mem) (node d : Nat) (_hd : d < 256) :
    (IndexNode.get_pointer m node d = none ↔ readU64 m (node + d * 8) = 0) ∧
    (∀ p, IndexNode.get_pointer m node d = some p →
      p = readU64 m (node + d * 8) &&& 0x7FFFFFFFFFFFFFFF) ∧
    (∀ off, off < 2 ^ 63 →
      IndexNode.get_pointer (IndexNode.set_pointer m node d off) node d = some off) := by
  refine ⟨?_, ?_, ?_⟩
  · unfold IndexNode.get_pointer
    by_cases h : readU64 m (node + d * 8) = 0 <;> simp [h]
  · intro p hp
    unfold IndexNode.get_pointer at hp
    by_cases h : readU64 m (node + d * 8) = 0
    · simp [h] at hp
    · simp only [h, ne_eq, not_false_eq_true, if_true, if_pos,
        Option.some.injEq] at hp
      exact hp.symm
  · intro off hoff
    exact get_pointer_set_pointer m node d off hoff

/-- C7 witness: a zero offset written at digit 5 reads back as `some 0`. -/
theorem get_pointer_spec_witness :
    IndexNode.get_pointer (IndexNode.set_pointer zeroMem 0 5 0) 0 5 = some 0 :=
  (get_pointer_spec zeroMem 0 5 (by norm_num)).2.2 0 (by norm_num)

/-- C9: `flush_index` makes the index mapping's bytes durable and leaves
the chunk mapping, the chunk file's durable bytes, and the whole in-memory
store untouched — no chunk data is forced to disk. -/
theorem flush_index_spec (w : StorageSystem) :
    (flush_index w).store = w.store ∧
    (flush_index w).chunkDisk = w.chunkDisk ∧
    (flush_index w).indexDisk = w.store.indexMem :=
  ⟨rfl, rfl, rfl⟩

/-- The chunk range with corner points `(-1,-1,-1)` and `(1,1,1)`. -/
def rangeC5 : ChunkRange :=
  ChunkRange.from_end_points ⟨-1, -1, -1⟩ ⟨1, 1, 1⟩

/-- C5 counterexample: iterating the range with corner points `(-1,-1,-1)`
and `(1,1,1)` as `load_chunk_range` does visits 8 coordinates, not 27; the
upper corner `(1,1,1)` itself is never visited. -/
theorem iter_xyz_cube_not_27 :
    (load_chunk_range_visits rangeC5).length = 8 ∧
    (load_chunk_range_visits rangeC5).length ≠ 27 ∧
    ChunkCoordinate.mk 1 1 1 ∉ load_chunk_range_visits rangeC5 := by
  decide

/-- C5 amended: the range with corner points `(-1,-1,-1)` and `(1,1,1)`
visits exactly 8 coordinates, once per coordinate of the half-open box
`[-1,1)³` — each axis runs from the minimum corner inclusive to the maximum
corner exclusive. -/
theorem iter_xyz_cube_spec :
    (load_chunk_range_visits rangeC5).length = 8 ∧
    (load_chunk_range_visits rangeC5).Nodup ∧
    ∀ c : ChunkCoordinate, c ∈ load_chunk_range_visits rangeC5 ↔
      (-1 ≤ c.x ∧ c.x < 1 ∧ -1 ≤ c.y ∧ c.y < 1 ∧ -1 ≤ c.z ∧ c.z < 1) := by
  refine ⟨by decide, by decide, ?_⟩
  have hlist : load_chunk_range_visits rangeC5 =
      [⟨-1, -1, -1⟩, ⟨-1, -1, 0⟩, ⟨-1, 0, -1⟩, ⟨-1, 0, 0⟩,
       ⟨0, -1, -1⟩, ⟨0, -1, 0⟩, ⟨0, 0, -1⟩, ⟨0, 0, 0⟩] := by decide
  intro c
  obtain ⟨cx, cy, cz⟩ := c
  rw [hlist]
  simp only [List.mem_cons, List.not_mem_nil, or_false, ChunkCoordinate.mk.injEq]
  omega

/-- The digit sequence that `get_chunk_address` / `get_or_create_chunk_address`
walk: bytes 3,4,5,6 of the little-endian key, then byte 7. -/
def traversalDigits (key : Nat) : List Nat :=
  [TerrainDiskStorage.keyByte key 3, TerrainDiskStorage.keyByte key 4,
   TerrainDiskStorage.keyByte key 5, TerrainDiskStorage.keyByte key 6,
   TerrainDiskStorage.keyByte key 7]

/-- C3 counterexample: the traversal digits are not the key's bytes in
most-significant-first order, and the path is not determined by the whole
key — the distinct keys `1` and `0` have identical digit sequences (the low
three bytes never take part), and a key's used bytes appear in ascending
significance, byte 3 first. -/
theorem traversalDigits_not_msb_first :
    traversalDigits 1 = traversalDigits 0 ∧ (1 : Nat) ≠ 0 ∧
    TerrainDiskStorage.get_chunk_address freshStorage 1 =
      TerrainDiskStorage.get_chunk_address freshStorage 0 ∧
    traversalDigits 0x0102030405060708 = [5, 4, 3, 2, 1] := by
  refine ⟨by decide, by decide, rfl, by decide⟩

/-- C3 amended: the digit sequence used to walk the index tree consists of
bytes 3, 4, 5 and 6 of the key's little-endian representation (in order of
increasing significance) followed by byte 7; any two keys agreeing on those
five bytes — in particular keys differing only in their low 24 bits —
resolve identically. -/
theorem get_chunk_address_digits (s : TerrainDiskStorage) (key1 key2 : Nat)
    (h : traversalDigits key1 = traversalDigits key2) :
    TerrainDiskStorage.get_chunk_address s key1 =
      TerrainDiskStorage.get_chunk_address s key2 := by
  simp only [traversalDigits, List.cons.injEq, and_true] at h
  obtain ⟨h3, h4, h5, h6, h7⟩ := h
  unfold TerrainDiskStorage.get_chunk_address
  rw [h3, h4, h5, h6, h7]

/-- C3 amended witness: keys `1` and `0` resolve identically on the fresh
store. -/
theorem get_chunk_address_digits_witness :
    TerrainDiskStorage.get_chunk_address freshStorage 1 =
      TerrainDiskStorage.get_chunk_address freshStorage 0 :=
  get_chunk_address_digits freshStorage 1 0 (by decide)

/-! ## The index mapping built by the first creation on a fresh store

Creating one chunk on a fresh store allocates the nodes `2048`, `4096`,
`6144` and `8192` (one per traversal digit) and one chunk record at byte
`8192` of the chunk file (pointer `512`), and records each allocation in
its parent's slot. -/

/-- Index memory after the first node allocation. -/
def memA1 (d3 : Nat) : Mem := IndexNode.set_pointer zeroMem 0 d3 2048

/-- Index memory after the second node allocation. -/
def memA2 (d3 d4 : Nat) : Mem := IndexNode.set_pointer (memA1 d3) 2048 d4 4096

/-- Index memory after the third node allocation. -/
def memA3 (d3 d4 d5 : Nat) : Mem :=
  IndexNode.set_pointer (memA2 d3 d4) 4096 d5 6144

/-- Index memory after the four node allocations. -/
def memAfter4 (d3 d4 d5 d6 : Nat) : Mem :=
  IndexNode.set_pointer (memA3 d3 d4 d5) 6144 d6 8192

/-- Index memory after the chunk pointer is also recorded. -/
def memAfter5 (d3 d4 d5 d6 d7 : Nat) : Mem :=
  IndexNode.set_pointer (memAfter4 d3 d4 d5 d6) 8192 d7 512

/-- Store state after the first node allocation. -/
def stA1 (d3 : Nat) : TerrainDiskStorage :=
  { indexLen := 4096, chunkLen := 8192, indexMem := memA1 d3,
    chunkMem := zeroMem, growCount := 1 }

/-- Store state after the second node allocation. -/
def stA2 (d3 d4 : Nat) : TerrainDiskStorage :=
  { indexLen := 6144, chunkLen := 8192, indexMem := memA2 d3 d4,
    chunkMem := zeroMem, growCount := 2 }

/-- Store state after the third node allocation. -/
def stA3 (d3 d4 d5 : Nat) : TerrainDiskStorage :=
  { indexLen := 8192, chunkLen := 8192, indexMem := memA3 d3 d4 d5,
    chunkMem := zeroMem, growCount := 3 }

/-- Store state after the four node allocations. -/
def stAfter4 (d3 d4 d5 d6 : Nat) : TerrainDiskStorage :=
  { indexLen := 10240, chunkLen := 8192, indexMem := memAfter4 d3 d4 d5 d6,
    chunkMem := zeroMem, growCount := 4 }

/-- Store state after the whole first creation. -/
def stAfter5 (d3 d4 d5 d6 d7 : Nat) : TerrainDiskStorage :=
  { indexLen := 10240, chunkLen := 16384, indexMem := memAfter5 d3 d4 d5 d6 d7,
    chunkMem := zeroMem, growCount := 5 }

theorem new_node_noFail (s : TerrainDiskStorage) :
    TerrainDiskStorage.new_node noFail s =
      .ok (s.indexLen,
        { s with indexLen := s.indexLen + NODE_LENGTH, growCount := s.growCount + 1 }) :=
  rfl

theorem new_chunk_noFail (s : TerrainDiskStorage) :
    TerrainDiskStorage.new_chunk noFail s =
      .ok ((if s.chunkLen = 1 then 0 else s.chunkLen) >>> 4,
        { s with chunkLen := (if s.chunkLen = 1 then 0 else s.chunkLen) + CHUNK_LENGTH,
                 growCount := s.growCount + 1 }) :=
  rfl

/-- Reading an untouched `u64` through a `set_pointer` write. -/
theorem readU64_set_pointer_disjoint (m : Mem) (off k v o : Nat)
    (h : off + k * 8 + 8 ≤ o ∨ o + 8 ≤ off + k * 8) :
    readU64 (IndexNode.set_pointer m off k v) o = readU64 m o :=
  readU64_writeU64_disjoint m (off + k * 8) (v ||| SENTINEL) o h

section FreshWalk

variable {d3 d4 d5 d6 d7 : Nat}

theorem memAfter4_read_root (h3 : d3 < 256) (h4 : d4 < 256) (h5 : d5 < 256)
    (h6 : d6 < 256) :
    IndexNode.get_pointer (memAfter4 d3 d4 d5 d6) 0 d3 = some 2048 := by
  apply get_pointer_eq_some _ (by norm_num)
  unfold memAfter4 memA3 memA2 memA1
  rw [readU64_set_pointer_disjoint _ _ _ _ _ (by omega),
    readU64_set_pointer_disjoint _ _ _ _ _ (by omega),
    readU64_set_pointer_disjoint _ _ _ _ _ (by omega)]
  unfold IndexNode.set_pointer
  rw [Nat.zero_add]
  exact readU64_writeU64 _ _ _ (sentinel_or_lt (by norm_num))

theorem memAfter4_read_n1 (h3 : d3 < 256) (h4 : d4 < 256) (h5 : d5 < 256)
    (h6 : d6 < 256) :
    IndexNode.get_pointer (memAfter4 d3 d4 d5 d6) 2048 d4 = some 4096 := by
  apply get_pointer_eq_some _ (by norm_num)
  unfold memAfter4 memA3 memA2
  rw [readU64_set_pointer_disjoint _ _ _ _ _ (by omega),
    readU64_set_pointer_disjoint _ _ _ _ _ (by omega)]
  unfold IndexNode.set_pointer
  exact readU64_writeU64 _ _ _ (sentinel_or_lt (by norm_num))

theorem memAfter4_read_n2 (h3 : d3 < 256) (h4 : d4 < 256) (h5 : d5 < 256)
    (h6 : d6 < 256) :
    IndexNode.get_pointer (memAfter4 d3 d4 d5 d6) 4096 d5 = some 6144 := by
  apply get_pointer_eq_some _ (by norm_num)
  unfold memAfter4 memA3
  rw [readU64_set_pointer_disjoint _ _ _ _ _ (by omega)]
  unfold IndexNode.set_pointer
  exact readU64_writeU64 _ _ _ (sentinel_or_lt (by norm_num))

theorem memAfter4_read_n3 (h3 : d3 < 256) (h4 : d4 < 256) (h5 : d5 < 256)
    (h6 : d6 < 256) :
    IndexNode.get_pointer (memAfter4 d3 d4 d5 d6) 6144 d6 = some 8192 := by
  apply get_pointer_eq_some _ (by norm_num)
  unfold memAfter4 IndexNode.set_pointer
  exact readU64_writeU64 _ _ _ (sentinel_or_lt (by norm_num))

theorem memA1_read_none (h3 : d3 < 256) (h4 : d4 < 256) :
    IndexNode.get_pointer (memA1 d3) 2048 d4 = none := by
  apply get_pointer_eq_none
  unfold memA1
  rw [readU64_set_pointer_disjoint _ _ _ _ _ (by omega)]
  exact readU64_zeroMem _

theorem memA2_read_none (h3 : d3 < 256) (h4 : d4 < 256) (h5 : d5 < 256) :
    IndexNode.get_pointer (memA2 d3 d4) 4096 d5 = none := by
  apply get_pointer_eq_none
  unfold memA2 memA1
  rw [readU64_set_pointer_disjoint _ _ _ _ _ (by omega),
    readU64_set_pointer_disjoint _ _ _ _ _ (by omega)]
  exact readU64_zeroMem _

theorem memA3_read_none (h3 : d3 < 256) (h4 : d4 < 256) (h5 : d5 < 256)
    (h6 : d6 < 256) :
    IndexNode.get_pointer (memA3 d3 d4 d5) 6144 d6 = none := by
  apply get_pointer_eq_none
  unfold memA3 memA2 memA1
  rw [readU64_set_pointer_disjoint _ _ _ _ _ (by omega),
    readU64_set_pointer_disjoint _ _ _ _ _ (by omega),
    readU64_set_pointer_disjoint _ _ _ _ _ (by omega)]
  exact readU64_zeroMem _

theorem memAfter4_read_none (h3 : d3 < 256) (h4 : d4 < 256) (h5 : d5 < 256)
    (h6 : d6 < 256) (h7 : d7 < 256) :
    IndexNode.get_pointer (memAfter4 d3 d4 d5 d6) 8192 d7 = none := by
  apply get_pointer_eq_none
  unfold memAfter4 memA3 memA2 memA1
  rw [readU64_set_pointer_disjoint _ _ _ _ _ (by omega),
    readU64_set_pointer_disjoint _ _ _ _ _ (by omega),
    readU64_set_pointer_disjoint _ _ _ _ _ (by omega),
    readU64_set_pointer_disjoint _ _ _ _ _ (by omega)]
  exact readU64_zeroMem _

/-- Reading `get_pointer` only depends on the slot it reads. -/
theorem get_pointer_congr {m1 m2 : Mem} (off k : Nat)
    (h : readU64 m1 (off + k * 8) = readU64 m2 (off + k * 8)) :
    IndexNode.get_pointer m1 off k = IndexNode.get_pointer m2 off k := by
  unfold IndexNode.get_pointer
  rw [h]

theorem memAfter5_read_root (h3 : d3 < 256) (h4 : d4 < 256) (h5 : d5 < 256)
    (h6 : d6 < 256) (h7 : d7 < 256) :
    IndexNode.get_pointer (memAfter5 d3 d4 d5 d6 d7) 0 d3 = some 2048 := by
  have h : IndexNode.get_pointer (memAfter5 d3 d4 d5 d6 d7) 0 d3 =
      IndexNode.get_pointer (memAfter4 d3 d4 d5 d6) 0 d3 := by
    apply get_pointer_congr
    unfold memAfter5
    exact readU64_set_pointer_disjoint _ _ _ _ _ (by omega)
  rw [h]
  exact memAfter4_read_root h3 h4 h5 h6

theorem memAfter5_read_n1 (h3 : d3 < 256) (h4 : d4 < 256) (h5 : d5 < 256)
    (h6 : d6 < 256) (h7 : d7 < 256) :
    IndexNode.get_pointer (memAfter5 d3 d4 d5 d6 d7) 2048 d4 = some 4096 := by
  have h : IndexNode.get_pointer (memAfter5 d3 d4 d5 d6 d7) 2048 d4 =
      IndexNode.get_pointer (memAfter4 d3 d4 d5 d6) 2048 d4 := by
    apply get_pointer_congr
    unfold memAfter5
    exact readU64_set_pointer_disjoint _ _ _ _ _ (by omega)
  rw [h]
  exact memAfter4_read_n1 h3 h4 h5 h6

theorem memAfter5_read_n2 (h3 : d3 < 256) (h4 : d4 < 256) (h5 : d5 < 256)
    (h6 : d6 < 256) (h7 : d7 < 256) :
    IndexNode.get_pointer (memAfter5 d3 d4 d5 d6 d7) 4096 d5 = some 6144 := by
  have h : IndexNode.get_pointer (memAfter5 d3 d4 d5 d6 d7) 4096 d5 =
      IndexNode.get_pointer (memAfter4 d3 d4 d5 d6) 4096 d5 := by
    apply get_pointer_congr
    unfold memAfter5
    exact readU64_set_pointer_disjoint _ _ _ _ _ (by omega)
  rw [h]
  exact memAfter4_read_n2 h3 h4 h5 h6

theorem memAfter5_read_n3 (h3 : d3 < 256) (h4 : d4 < 256) (h5 : d5 < 256)
    (h6 : d6 < 256) (h7 : d7 < 256) :
    IndexNode.get_pointer (memAfter5 d3 d4 d5 d6 d7) 6144 d6 = some 8192 := by
  have h : IndexNode.get_pointer (memAfter5 d3 d4 d5 d6 d7) 6144 d6 =
      IndexNode.get_pointer (memAfter4 d3 d4 d5 d6) 6144 d6 := by
    apply get_pointer_congr
    unfold memAfter5
    exact readU64_set_pointer_disjoint _ _ _ _ _ (by omega)
  rw [h]
  exact memAfter4_read_n3 h3 h4 h5 h6

theorem memAfter5_read_n4 (h7 : d7 < 256) :
    IndexNode.get_pointer (memAfter5 d3 d4 d5 d6 d7) 8192 d7 = some 512 := by
  apply get_pointer_eq_some _ (by norm_num)
  unfold memAfter5 IndexNode.set_pointer
  exact readU64_writeU64 _ _ _ (sentinel_or_lt (by norm_num))

end FreshWalk

/-- Evaluates `createWalk` on an empty digit list. -/
theorem createWalk_nil (g : GrowOracle) (s : TerrainDiskStorage) (node : Nat) :
    TerrainDiskStorage.createWalk g s node [] = (.ok node, s, []) := rfl

/-- One `createWalk` step through an already-set slot. -/
theorem createWalk_cons_found (g : GrowOracle) (s : TerrainDiskStorage)
    (node d : Nat) (rest : List Nat) (a : Nat)
    (ha : node &&& 0xFF = 0)
    (hp : IndexNode.get_pointer s.indexMem node d = some a) :
    TerrainDiskStorage.createWalk g s node (d :: rest) =
      TerrainDiskStorage.createWalk g s a rest := by
  rw [TerrainDiskStorage.createWalk, if_pos ha, hp]

/-- One `createWalk` step through an unset slot: allocate a node, record it,
descend. -/
theorem createWalk_cons_none (g : GrowOracle) (s : TerrainDiskStorage)
    (node d : Nat) (rest : List Nat) (a : Nat) (s1 : TerrainDiskStorage)
    (ha : node &&& 0xFF = 0)
    (hp : IndexNode.get_pointer s.indexMem node d = none)
    (hnn : TerrainDiskStorage.new_node g s = .ok (a, s1)) :
    TerrainDiskStorage.createWalk g s node (d :: rest) =
      (match TerrainDiskStorage.createWalk g
          (TerrainDiskStorage.setNodePointer s1 node d a) a rest with
       | (r, s3, log) => (r, s3, ⟨node, d, a, false⟩ :: log)) := by
  rw [TerrainDiskStorage.createWalk, if_pos ha, hp, hnn]

section FreshWalkSteps

variable {d3 d4 d5 d6 d7 : Nat}

theorem createWalk_fresh_step1 (h3 : d3 < 256) (h4 : d4 < 256)
    (h5 : d5 < 256) (h6 : d6 < 256) :
    TerrainDiskStorage.createWalk noFail (stA3 d3 d4 d5) 6144 [d6] =
      (.ok 8192, stAfter4 d3 d4 d5 d6, [⟨6144, d6, 8192, false⟩]) := by
  rw [createWalk_cons_none noFail (stA3 d3 d4 d5) 6144 d6 [] 8192
      { indexLen := 10240, chunkLen := 8192, indexMem := memA3 d3 d4 d5,
        chunkMem := zeroMem, growCount := 4 }
      (by decide) (memA3_read_none h3 h4 h5 h6) rfl]
  rw [show TerrainDiskStorage.setNodePointer
      { indexLen := 10240, chunkLen := 8192, indexMem := memA3 d3 d4 d5,
        chunkMem := zeroMem, growCount := 4 } 6144 d6 8192 =
      stAfter4 d3 d4 d5 d6 from rfl]
  rw [createWalk_nil]

theorem createWalk_fresh_step2 (h3 : d3 < 256) (h4 : d4 < 256)
    (h5 : d5 < 256) (h6 : d6 < 256) :
    TerrainDiskStorage.createWalk noFail (stA2 d3 d4) 4096 [d5, d6] =
      (.ok 8192, stAfter4 d3 d4 d5 d6,
        [⟨4096, d5, 6144, false⟩, ⟨6144, d6, 8192, false⟩]) := by
  rw [createWalk_cons_none noFail (stA2 d3 d4) 4096 d5 [d6] 6144
      { indexLen := 8192, chunkLen := 8192, indexMem := memA2 d3 d4,
        chunkMem := zeroMem, growCount := 3 }
      (by decide) (memA2_read_none h3 h4 h5) rfl]
  rw [show TerrainDiskStorage.setNodePointer
      { indexLen := 8192, chunkLen := 8192, indexMem := memA2 d3 d4,
        chunkMem := zeroMem, growCount := 3 } 4096 d5 6144 =
      stA3 d3 d4 d5 from rfl]
  rw [createWalk_fresh_step1 h3 h4 h5 h6]

theorem createWalk_fresh_step3 (h3 : d3 < 256) (h4 : d4 < 256)
    (h5 : d5 < 256) (h6 : d6 < 256) :
    TerrainDiskStorage.createWalk noFail (stA1 d3) 2048 [d4, d5, d6] =
      (.ok 8192, stAfter4 d3 d4 d5 d6,
        [⟨2048, d4, 4096, false⟩, ⟨4096, d5, 6144, false⟩,
         ⟨6144, d6, 8192, false⟩]) := by
  rw [createWalk_cons_none noFail (stA1 d3) 2048 d4 [d5, d6] 4096
      { indexLen := 6144, chunkLen := 8192, indexMem := memA1 d3,
        chunkMem := zeroMem, growCount := 2 }
      (by decide) (memA1_read_none h3 h4) rfl]
  rw [show TerrainDiskStorage.setNodePointer
      { indexLen := 6144, chunkLen := 8192, indexMem := memA1 d3,
        chunkMem := zeroMem, growCount := 2 } 2048 d4 4096 =
      stA2 d3 d4 from rfl]
  rw [createWalk_fresh_step2 h3 h4 h5 h6]

/-- The digit loop of the first creation on a fresh store: four nodes are
allocated at the successive ends of the index file and recorded in their
parents' slots. -/
theorem createWalk_fresh (h3 : d3 < 256) (h4 : d4 < 256) (h5 : d5 < 256)
    (h6 : d6 < 256) :
    TerrainDiskStorage.createWalk noFail freshStorage 0 [d3, d4, d5, d6] =
      (.ok 8192, stAfter4 d3 d4 d5 d6,
        [⟨0, d3, 2048, false⟩, ⟨2048, d4, 4096, false⟩,
         ⟨4096, d5, 6144, false⟩, ⟨6144, d6, 8192, false⟩]) := by
  rw [createWalk_cons_none noFail freshStorage 0 d3 [d4, d5, d6] 2048
      { indexLen := 4096, chunkLen := 8192, indexMem := zeroMem,
        chunkMem := zeroMem, growCount := 1 }
      (by decide) (get_pointer_eq_none (readU64_zeroMem (0 + d3 * 8))) rfl]
  rw [show TerrainDiskStorage.setNodePointer
      { indexLen := 4096, chunkLen := 8192, indexMem := zeroMem,
        chunkMem := zeroMem, growCount := 1 } 0 d3 2048 =
      stA1 d3 from rfl]
  rw [createWalk_fresh_step3 h3 h4 h5 h6]

end FreshWalkSteps

/-- Reduce `get_or_create_chunk_address` when the walk succeeds and the
chunk slot is already set. -/
theorem goc_address_found (g : GrowOracle) (s : TerrainDiskStorage) (key : Nat)
    (node : Nat) (s1 : TerrainDiskStorage) (log : List PtrWrite) (a : Nat)
    (hw : TerrainDiskStorage.createWalk g s 0
      [TerrainDiskStorage.keyByte key 3, TerrainDiskStorage.keyByte key 4,
       TerrainDiskStorage.keyByte key 5, TerrainDiskStorage.keyByte key 6] =
      (.ok node, s1, log))
    (ha : node &&& 0xFF = 0)
    (hp : IndexNode.get_pointer s1.indexMem node (TerrainDiskStorage.keyByte key 7) =
      some a) :
    TerrainDiskStorage.get_or_create_chunk_address g s key = (.ok (false, a), s1, log) := by
  unfold TerrainDiskStorage.get_or_create_chunk_address
  rw [hw]
  simp only []
  rw [if_pos ha, hp]

/-- Reduce `get_or_create_chunk_address` when the walk succeeds and the
chunk slot is unset: allocate a chunk record and record its pointer. -/
theorem goc_address_created (g : GrowOracle) (s : TerrainDiskStorage) (key : Nat)
    (node : Nat) (s1 : TerrainDiskStorage) (log : List PtrWrite) (a : Nat)
    (s2 : TerrainDiskStorage)
    (hw : TerrainDiskStorage.createWalk g s 0
      [TerrainDiskStorage.keyByte key 3, TerrainDiskStorage.keyByte key 4,
       TerrainDiskStorage.keyByte key 5, TerrainDiskStorage.keyByte key 6] =
      (.ok node, s1, log))
    (ha : node &&& 0xFF = 0)
    (hp : IndexNode.get_pointer s1.indexMem node (TerrainDiskStorage.keyByte key 7) =
      none)
    (hnc : TerrainDiskStorage.new_chunk g s1 = .ok (a, s2)) :
    TerrainDiskStorage.get_or_create_chunk_address g s key =
      (.ok (true, a),
        TerrainDiskStorage.setNodePointer s2 node (TerrainDiskStorage.keyByte key 7) a,
        log ++ [⟨node, TerrainDiskStorage.keyByte key 7, a, true⟩]) := by
  unfold TerrainDiskStorage.get_or_create_chunk_address
  rw [hw]
  simp only []
  rw [if_pos ha, hp]
  simp only []
  rw [hnc]

/-- Evaluates `getWalk` on an empty digit list. -/
theorem getWalk_nil (m : Mem) (node : Nat) :
    TerrainDiskStorage.getWalk m node [] = .ok (some node) := rfl

/-- One `getWalk` step through a set slot. -/
theorem getWalk_cons_found (m : Mem) (node d : Nat) (rest : List Nat) (a : Nat)
    (ha : node &&& 0xFF = 0)
    (hp : IndexNode.get_pointer m node d = some a) :
    TerrainDiskStorage.getWalk m node (d :: rest) =
      TerrainDiskStorage.getWalk m a rest := by
  rw [TerrainDiskStorage.getWalk, if_pos ha, hp]

/-- Reduce `get_chunk_address` when the whole chain is present. -/
theorem gca_some (s : TerrainDiskStorage) (key node a : Nat)
    (hw : TerrainDiskStorage.getWalk s.indexMem 0
      [TerrainDiskStorage.keyByte key 3, TerrainDiskStorage.keyByte key 4,
       TerrainDiskStorage.keyByte key 5, TerrainDiskStorage.keyByte key 6] =
      .ok (some node))
    (ha : node &&& 0xFF = 0)
    (hp : IndexNode.get_pointer s.indexMem node (TerrainDiskStorage.keyByte key 7) =
      some a) :
    TerrainDiskStorage.get_chunk_address s key = .ok (some a) := by
  unfold TerrainDiskStorage.get_chunk_address
  rw [hw]
  simp only []
  rw [if_pos ha, hp]

/-- Allocating the chunk record after the four node allocations: the chunk
file grows from one record to two, and the new record's tagged pointer is
its byte offset `8192` shifted right by 4. -/
theorem new_chunk_stAfter4 (d3 d4 d5 d6 : Nat) :
    TerrainDiskStorage.new_chunk noFail (stAfter4 d3 d4 d5 d6) =
      .ok (512,
        { indexLen := 10240, chunkLen := 16384,
          indexMem := memAfter4 d3 d4 d5 d6, chunkMem := zeroMem, growCount := 5 }) := by
  have h : TerrainDiskStorage.new_chunk noFail (stAfter4 d3 d4 d5 d6) =
      .ok (8192 >>> 4,
        { indexLen := 10240, chunkLen := 8192 + CHUNK_LENGTH,
          indexMem := memAfter4 d3 d4 d5 d6, chunkMem := zeroMem, growCount := 4 + 1 }) := rfl
  rw [h]
  norm_num [CHUNK_LENGTH, Nat.shiftRight_eq_div_pow]

section AfterCreate

variable (key : Nat)

/-- Abbreviations for the five traversal digits of `key`. -/
theorem goc_address_fresh :
    TerrainDiskStorage.get_or_create_chunk_address noFail freshStorage key =
      (.ok (true, 512),
        stAfter5 (TerrainDiskStorage.keyByte key 3) (TerrainDiskStorage.keyByte key 4)
          (TerrainDiskStorage.keyByte key 5) (TerrainDiskStorage.keyByte key 6)
          (TerrainDiskStorage.keyByte key 7),
        [⟨0, TerrainDiskStorage.keyByte key 3, 2048, false⟩,
         ⟨2048, TerrainDiskStorage.keyByte key 4, 4096, false⟩,
         ⟨4096, TerrainDiskStorage.keyByte key 5, 6144, false⟩,
         ⟨6144, TerrainDiskStorage.keyByte key 6, 8192, false⟩,
         ⟨8192, TerrainDiskStorage.keyByte key 7, 512, true⟩]) := by
  rw [goc_address_created noFail freshStorage key 8192
      (stAfter4 (TerrainDiskStorage.keyByte key 3) (TerrainDiskStorage.keyByte key 4)
        (TerrainDiskStorage.keyByte key 5) (TerrainDiskStorage.keyByte key 6))
      [⟨0, TerrainDiskStorage.keyByte key 3, 2048, false⟩,
       ⟨2048, TerrainDiskStorage.keyByte key 4, 4096, false⟩,
       ⟨4096, TerrainDiskStorage.keyByte key 5, 6144, false⟩,
       ⟨6144, TerrainDiskStorage.keyByte key 6, 8192, false⟩]
      512
      { indexLen := 10240, chunkLen := 16384,
        indexMem := memAfter4 (TerrainDiskStorage.keyByte key 3)
          (TerrainDiskStorage.keyByte key 4) (TerrainDiskStorage.keyByte key 5)
          (TerrainDiskStorage.keyByte key 6),
        chunkMem := zeroMem, growCount := 5 }
      (createWalk_fresh (TerrainDiskStorage.keyByte_lt key 3)
        (TerrainDiskStorage.keyByte_lt key 4) (TerrainDiskStorage.keyByte_lt key 5)
        (TerrainDiskStorage.keyByte_lt key 6))
      (by decide)
      (memAfter4_read_none (TerrainDiskStorage.keyByte_lt key 3)
        (TerrainDiskStorage.keyByte_lt key 4) (TerrainDiskStorage.keyByte_lt key 5)
        (TerrainDiskStorage.keyByte_lt key 6) (TerrainDiskStorage.keyByte_lt key 7))
      (new_chunk_stAfter4 (TerrainDiskStorage.keyByte key 3)
        (TerrainDiskStorage.keyByte key 4) (TerrainDiskStorage.keyByte key 5)
        (TerrainDiskStorage.keyByte key 6))]
  rfl

/-- The state built by the first creation. -/
def stAfterKey : TerrainDiskStorage :=
  stAfter5 (TerrainDiskStorage.keyByte key 3) (TerrainDiskStorage.keyByte key 4)
    (TerrainDiskStorage.keyByte key 5) (TerrainDiskStorage.keyByte key 6)
    (TerrainDiskStorage.keyByte key 7)

/-- The second `get_or_create_chunk_address` call finds every link of the
chain just created: it returns the same pointer, performs no write and
grows neither file. -/
theorem goc_address_again :
    TerrainDiskStorage.get_or_create_chunk_address noFail (stAfterKey key) key =
      (.ok (false, 512), stAfterKey key, []) := by
  apply goc_address_found noFail (stAfterKey key) key 8192 (stAfterKey key) [] 512
  · rw [createWalk_cons_found noFail (stAfterKey key) 0
        (TerrainDiskStorage.keyByte key 3)
        [TerrainDiskStorage.keyByte key 4, TerrainDiskStorage.keyByte key 5,
         TerrainDiskStorage.keyByte key 6] 2048 (by decide)
        (memAfter5_read_root (TerrainDiskStorage.keyByte_lt key 3)
          (TerrainDiskStorage.keyByte_lt key 4) (TerrainDiskStorage.keyByte_lt key 5)
          (TerrainDiskStorage.keyByte_lt key 6) (TerrainDiskStorage.keyByte_lt key 7)),
      createWalk_cons_found noFail (stAfterKey key) 2048
        (TerrainDiskStorage.keyByte key 4)
        [TerrainDiskStorage.keyByte key 5, TerrainDiskStorage.keyByte key 6]
        4096 (by decide)
        (memAfter5_read_n1 (TerrainDiskStorage.keyByte_lt key 3)
          (TerrainDiskStorage.keyByte_lt key 4) (TerrainDiskStorage.keyByte_lt key 5)
          (TerrainDiskStorage.keyByte_lt key 6) (TerrainDiskStorage.keyByte_lt key 7)),
      createWalk_cons_found noFail (stAfterKey key) 4096
        (TerrainDiskStorage.keyByte key 5) [TerrainDiskStorage.keyByte key 6]
        6144 (by decide)
        (memAfter5_read_n2 (TerrainDiskStorage.keyByte_lt key 3)
          (TerrainDiskStorage.keyByte_lt key 4) (TerrainDiskStorage.keyByte_lt key 5)
          (TerrainDiskStorage.keyByte_lt key 6) (TerrainDiskStorage.keyByte_lt key 7)),
      createWalk_cons_found noFail (stAfterKey key) 6144
        (TerrainDiskStorage.keyByte key 6) [] 8192 (by decide)
        (memAfter5_read_n3 (TerrainDiskStorage.keyByte_lt key 3)
          (TerrainDiskStorage.keyByte_lt key 4) (TerrainDiskStorage.keyByte_lt key 5)
          (TerrainDiskStorage.keyByte_lt key 6) (TerrainDiskStorage.keyByte_lt key 7)),
      createWalk_nil]
  · decide
  · exact memAfter5_read_n4 (TerrainDiskStorage.keyByte_lt key 7)

/-- Any store whose index mapping equals the one built by the first
creation resolves `key` to chunk pointer `512`. -/
theorem get_chunk_address_after (s : TerrainDiskStorage)
    (hmem : s.indexMem = memAfter5 (TerrainDiskStorage.keyByte key 3)
      (TerrainDiskStorage.keyByte key 4) (TerrainDiskStorage.keyByte key 5)
      (TerrainDiskStorage.keyByte key 6) (TerrainDiskStorage.keyByte key 7)) :
    TerrainDiskStorage.get_chunk_address s key = .ok (some 512) := by
  apply gca_some s key 8192 512
  · rw [hmem]
    rw [getWalk_cons_found _ 0 (TerrainDiskStorage.keyByte key 3)
        [TerrainDiskStorage.keyByte key 4, TerrainDiskStorage.keyByte key 5,
         TerrainDiskStorage.keyByte key 6] 2048 (by decide)
        (memAfter5_read_root (TerrainDiskStorage.keyByte_lt key 3)
          (TerrainDiskStorage.keyByte_lt key 4) (TerrainDiskStorage.keyByte_lt key 5)
          (TerrainDiskStorage.keyByte_lt key 6) (TerrainDiskStorage.keyByte_lt key 7)),
      getWalk_cons_found _ 2048 (TerrainDiskStorage.keyByte key 4)
        [TerrainDiskStorage.keyByte key 5, TerrainDiskStorage.keyByte key 6]
        4096 (by decide)
        (memAfter5_read_n1 (TerrainDiskStorage.keyByte_lt key 3)
          (TerrainDiskStorage.keyByte_lt key 4) (TerrainDiskStorage.keyByte_lt key 5)
          (TerrainDiskStorage.keyByte_lt key 6) (TerrainDiskStorage.keyByte_lt key 7)),
      getWalk_cons_found _ 4096 (TerrainDiskStorage.keyByte key 5)
        [TerrainDiskStorage.keyByte key 6] 6144 (by decide)
        (memAfter5_read_n2 (TerrainDiskStorage.keyByte_lt key 3)
          (TerrainDiskStorage.keyByte_lt key 4) (TerrainDiskStorage.keyByte_lt key 5)
          (TerrainDiskStorage.keyByte_lt key 6) (TerrainDiskStorage.keyByte_lt key 7)),
      getWalk_cons_found _ 6144 (TerrainDiskStorage.keyByte key 6) [] 8192
        (by decide)
        (memAfter5_read_n3 (TerrainDiskStorage.keyByte_lt key 3)
          (TerrainDiskStorage.keyByte_lt key 4) (TerrainDiskStorage.keyByte_lt key 5)
          (TerrainDiskStorage.keyByte_lt key 6) (TerrainDiskStorage.keyByte_lt key 7)),
      getWalk_nil]
  · decide
  · rw [hmem]
    exact memAfter5_read_n4 (TerrainDiskStorage.keyByte_lt key 7)

end AfterCreate

/-- Reduce `get_or_create_chunk` once the address resolution and the load
are known. -/
theorem goc_reduce (g : GrowOracle) (s : TerrainDiskStorage) (x y z : Int)
    (created : Bool) (a : Nat) (s1 : TerrainDiskStorage) (log : List PtrWrite)
    (c : TerrainChunkData)
    (haddr : TerrainDiskStorage.get_or_create_chunk_address g s
      (create_chunk_key x y z) = (.ok (created, a), s1, log))
    (hload : TerrainDiskStorage.load_chunk s1 (TerrainChunkData.create x y z a) a =
      .ok c) :
    TerrainDiskStorage.get_or_create_chunk g s x y z = (.ok (created, c), s1) := by
  unfold TerrainDiskStorage.get_or_create_chunk
  rw [haddr]
  simp only []
  rw [hload]

/-- Reduce `get_chunk` once the address resolution and the load are known. -/
theorem get_chunk_reduce (s : TerrainDiskStorage) (x y z : Int) (a : Nat)
    (c : TerrainChunkData)
    (haddr : TerrainDiskStorage.get_chunk_address s (create_chunk_key x y z) =
      .ok (some a))
    (hload : TerrainDiskStorage.load_chunk s (TerrainChunkData.create x y z a) a =
      .ok c) :
    TerrainDiskStorage.get_chunk s x y z = .ok (some c) := by
  unfold TerrainDiskStorage.get_chunk
  rw [haddr]
  simp only []
  rw [hload]

/-- The payload handle returned by both creation and lookup of the first
chunk: its `address` field records byte `8192` (= `512 <<< 4`) of the chunk
file, but its block contents are read from byte `512` — the raw chunk
pointer — because `load_chunk` ignores the shifted address. -/
def loadedChunk (m : Mem) (x y z : Int) : TerrainChunkData :=
  { storage := fun i => readU16 m (512 + 2 * i),
    address := 512 <<< 4, x := x, y := y, z := z }

theorem load_chunk_after (d3 d4 d5 d6 d7 : Nat) (x y z : Int) :
    TerrainDiskStorage.load_chunk (stAfter5 d3 d4 d5 d6 d7)
      (TerrainChunkData.create x y z 512) 512 = .ok (loadedChunk zeroMem x y z) := by
  unfold TerrainDiskStorage.load_chunk
  rw [if_pos (show 512 + CHUNK_LENGTH ≤
      (stAfter5 d3 d4 d5 d6 d7).chunkLen by
    simp [stAfter5, CHUNK_LENGTH])]
  rfl

/-- C6: creating a chunk at any coordinate on a fresh store and then
calling `get_or_create_chunk` again for the same coordinate returns a
payload handle with the identical backing chunk-file offset, reports the
chunk as not newly created, performs no write (the state is unchanged), and
grows neither the index file nor the chunk file. -/
theorem goc_idempotent (x y z : Int) :
    ∃ c1 c2 s1,
      TerrainDiskStorage.get_or_create_chunk noFail freshStorage x y z =
        (.ok (true, c1), s1) ∧
      TerrainDiskStorage.get_or_create_chunk noFail s1 x y z =
        (.ok (false, c2), s1) ∧
      c2.get_address_in_file = c1.get_address_in_file ∧
      s1.indexLen = 10240 ∧ s1.chunkLen = 16384 := by
  refine ⟨loadedChunk zeroMem x y z, loadedChunk zeroMem x y z,
    stAfterKey (create_chunk_key x y z), ?_, ?_, rfl, rfl, rfl⟩
  · exact goc_reduce noFail freshStorage x y z true 512
      (stAfterKey (create_chunk_key x y z)) _ _
      (goc_address_fresh (create_chunk_key x y z))
      (load_chunk_after _ _ _ _ _ x y z)
  · exact goc_reduce noFail (stAfterKey (create_chunk_key x y z)) x y z false 512
      (stAfterKey (create_chunk_key x y z)) [] _
      (goc_address_again (create_chunk_key x y z))
      (load_chunk_after _ _ _ _ _ x y z)

/-- Reading a block back out of the region written by `save_chunk` yields
the saved value reduced to its 16 stored bits. -/
theorem readU16_writeChunkData (m : Mem) (data : Nat → Nat) (a i : Nat)
    (hi : i < 4096) :
    readU16 (TerrainDiskStorage.writeChunkData m a data) (a + 2 * i) =
      data i % 65536 := by
  unfold readU16
  have hbytes : ∀ k, k < 2 →
      TerrainDiskStorage.writeChunkData m a data (a + 2 * i + k) =
        (data i >>> (8 * k)) % 256 := by
    intro k hk
    have hCL : CHUNK_LENGTH = 8192 := rfl
    unfold TerrainDiskStorage.writeChunkData
    rw [if_pos (by omega)]
    have h1 : a + 2 * i + k - a = 2 * i + k := by omega
    have h2 : (2 * i + k) / 2 = i := by omega
    have h3 : (2 * i + k) % 2 = k := by omega
    rw [h1, h2, h3]
  rw [readLE_of_bytes _ 2 (a + 2 * i) (data i) hbytes]
  norm_num

section RoundTrip

variable (key : Nat) (data : Nat → Nat) (x y z : Int)

/-- The store state after saving block data over the first chunk's region. -/
def stSaved : TerrainDiskStorage :=
  { indexLen := 10240, chunkLen := 16384,
    indexMem := memAfter5 (TerrainDiskStorage.keyByte key 3)
      (TerrainDiskStorage.keyByte key 4) (TerrainDiskStorage.keyByte key 5)
      (TerrainDiskStorage.keyByte key 6) (TerrainDiskStorage.keyByte key 7),
    chunkMem := TerrainDiskStorage.writeChunkData zeroMem (512 <<< 4) data,
    growCount := 5 }

theorem save_chunk_after :
    TerrainDiskStorage.save_chunk (stAfterKey key)
      { storage := data, address := 512 <<< 4, x := x, y := y, z := z } =
      .ok (stSaved key data) := by
  unfold TerrainDiskStorage.save_chunk
  rw [if_pos (show (TerrainChunkData.mk data (512 <<< 4) x y z).address +
      CHUNK_LENGTH ≤ (stAfterKey key).chunkLen by
    simp [stAfterKey, stAfter5, CHUNK_LENGTH])]
  rfl

theorem load_chunk_saved :
    TerrainDiskStorage.load_chunk (TerrainDiskStorage.reopen (stSaved key data))
      (TerrainChunkData.create x y z 512) 512 =
    .ok (loadedChunk (TerrainDiskStorage.writeChunkData zeroMem (512 <<< 4) data) x y z) := by
  unfold TerrainDiskStorage.load_chunk
  rw [if_pos (show 512 + CHUNK_LENGTH ≤
      (TerrainDiskStorage.reopen (stSaved key data)).chunkLen by
    simp [TerrainDiskStorage.reopen, stSaved,
      TerrainDiskStorage.initStorage, CHUNK_LENGTH])]
  rfl

end RoundTrip

/-- Reading any block of the reloaded payload: `save_chunk` wrote the data at
bytes `8192..16384` while the reload reads bytes starting at `512`, so block
`i` of the reloaded payload is the saved block `i - 3840` for
`3840 ≤ i < 7936` and zero (untouched file contents) everywhere else. -/
theorem readU16_saved_displaced (data : Nat → Nat) (i : Nat) :
    readU16 (TerrainDiskStorage.writeChunkData zeroMem (512 <<< 4) data)
      (512 + 2 * i) =
      if 3840 ≤ i ∧ i < 7936 then data (i - 3840) % 65536 else 0 := by
  have h16 : (512 : Nat) <<< 4 = 8192 := rfl
  by_cases h : 3840 ≤ i ∧ i < 7936
  · rw [if_pos h]
    have ho : 512 + 2 * i = 512 <<< 4 + 2 * (i - 3840) := by
      rw [h16]; omega
    rw [ho]
    exact readU16_writeChunkData zeroMem data (512 <<< 4) (i - 3840) (by omega)
  · rw [if_neg h]
    unfold readU16
    have hbytes : ∀ k, k < 2 →
        TerrainDiskStorage.writeChunkData zeroMem (512 <<< 4) data
          (512 + 2 * i + k) = ((0 : Nat) >>> (8 * k)) % 256 := by
      intro k hk
      unfold TerrainDiskStorage.writeChunkData
      rw [if_neg (by
        have hCL : CHUNK_LENGTH = 8192 := rfl
        rw [h16, hCL]
        omega)]
      simp [zeroMem]
    rw [readLE_of_bytes _ 2 (512 + 2 * i) 0 hbytes]
    norm_num

/-- C2: the save/close/reopen round trip does not return the saved block
contents. `save_chunk` writes the payload at the handle's shifted address
(`pointer <<< 4`, byte `8192` for the first chunk) while `load_chunk` reads
at the raw pointer (byte `512`), so after creating a chunk at any
coordinate, saving arbitrary block data, closing and reopening, `get_chunk`
of that coordinate returns a payload whose block `i` is `0` below index
`3840` and the saved block `i - 3840` from there on — not the saved data.
In particular, saving block `7` at local index `0` reads back `0` at index
`0` (the `7` reappears at index `3840`). -/
theorem save_reopen_displaced :
    (∀ (data : Nat → Nat) (x y z : Int),
      ∃ c1 s1 s2 q,
        TerrainDiskStorage.get_or_create_chunk noFail freshStorage x y z =
          (.ok (true, c1), s1) ∧
        TerrainDiskStorage.save_chunk s1 { c1 with storage := data } = .ok s2 ∧
        TerrainDiskStorage.get_chunk (TerrainDiskStorage.reopen s2) x y z =
          .ok (some q) ∧
        ∀ i, q.storage i =
          if 3840 ≤ i ∧ i < 7936 then data (i - 3840) % 65536 else 0) ∧
    (∃ c1 s1 s2 q,
        TerrainDiskStorage.get_or_create_chunk noFail freshStorage 0 0 0 =
          (.ok (true, c1), s1) ∧
        TerrainDiskStorage.save_chunk s1
          { c1 with storage := fun i => if i = 0 then 7 else 0 } = .ok s2 ∧
        TerrainDiskStorage.get_chunk (TerrainDiskStorage.reopen s2) 0 0 0 =
          .ok (some q) ∧
        q.storage 0 = 0 ∧ q.storage 3840 = 7) := by
  have main : ∀ (data : Nat → Nat) (x y z : Int),
      ∃ c1 s1 s2 q,
        TerrainDiskStorage.get_or_create_chunk noFail freshStorage x y z =
          (.ok (true, c1), s1) ∧
        TerrainDiskStorage.save_chunk s1 { c1 with storage := data } = .ok s2 ∧
        TerrainDiskStorage.get_chunk (TerrainDiskStorage.reopen s2) x y z =
          .ok (some q) ∧
        ∀ i, q.storage i =
          if 3840 ≤ i ∧ i < 7936 then data (i - 3840) % 65536 else 0 := by
    intro data x y z
    refine ⟨loadedChunk zeroMem x y z, stAfterKey (create_chunk_key x y z),
      stSaved (create_chunk_key x y z) data,
      loadedChunk (TerrainDiskStorage.writeChunkData zeroMem (512 <<< 4) data) x y z,
      ?_, ?_, ?_, ?_⟩
    · exact goc_reduce noFail freshStorage x y z true 512
        (stAfterKey (create_chunk_key x y z)) _ _
        (goc_address_fresh (create_chunk_key x y z))
        (load_chunk_after _ _ _ _ _ x y z)
    · exact save_chunk_after (create_chunk_key x y z) data x y z
    · exact get_chunk_reduce _ x y z 512 _
        (get_chunk_address_after (create_chunk_key x y z) _ rfl)
        (load_chunk_saved (create_chunk_key x y z) data x y z)
    · intro i
      exact readU16_saved_displaced data i
  refine ⟨main, ?_⟩
  obtain ⟨c1, s1, s2, q, h1, h2, h3, h4⟩ :=
    main (fun i => if i = 0 then 7 else 0) 0 0 0
  refine ⟨c1, s1, s2, q, h1, h2, h3, ?_, ?_⟩
  · rw [h4 0]; norm_num
  · rw [h4 3840]; norm_num

/-- The observable outcome of a `get_chunk` call. -/
def chunkFound : Except Unit (Option TerrainChunkData) → Bool
  | .ok (some _) => true
  | _ => false

/-- The store after `get_or_create_chunk(0, 0, 0)` on a fresh store. -/
def storageAfterOrigin : TerrainDiskStorage :=
  (TerrainDiskStorage.get_or_create_chunk noFail freshStorage 0 0 0).2

/-- C1: on a fresh store every lookup misses, and after creating only the
chunk at `(0,0,0)`, looking up `(0,0,0)` succeeds — but looking up the
never-requested axis-neighbor `(1,0,0)` also reports the chunk as present,
because address resolution ignores the low three bytes of the key. -/
theorem get_chunk_neighbor_alias :
    (∀ x y z : Int, TerrainDiskStorage.get_chunk freshStorage x y z = .ok none) ∧
    chunkFound (TerrainDiskStorage.get_chunk storageAfterOrigin 0 0 0) = true ∧
    chunkFound (TerrainDiskStorage.get_chunk storageAfterOrigin 1 0 0) = true := by
  refine ⟨?_, by decide, by decide⟩
  intro x y z
  unfold TerrainDiskStorage.get_chunk TerrainDiskStorage.get_chunk_address
  have hz : IndexNode.get_pointer freshStorage.indexMem 0
      (TerrainDiskStorage.keyByte (create_chunk_key x y z) 3) = none := by
    apply get_pointer_eq_none
    exact readU64_zeroMem _
  rw [TerrainDiskStorage.getWalk]
  simp [hz]

/-! ## Bit-level analysis of the key encoder

`spread_bits` distributes over bitwise or, maps the single bit `2 ^ k` to
`2 ^ (3 * k)`, and every 16-bit value is the bitwise or of its set bits;
together these characterize every bit of a spread value and of a key. -/

/-- The bitwise or of `2 ^ i` over a list of bit positions. -/
def orBits (l : List Nat) : Nat := l.foldr (fun i acc => 2 ^ i ||| acc) 0

/-- The set bit positions of a 16-bit value. -/
def bitsList (t : Nat) : List Nat := (List.range 16).filter (fun i => t.testBit i)

theorem orBits_testBit (l : List Nat) (j : Nat) :
    (orBits l).testBit j = decide (j ∈ l) := by
  induction l with
  | nil => simp [orBits]
  | cons i l ih =>
    show ((2 ^ i ||| orBits l).testBit j) = decide (j ∈ i :: l)
    rw [Nat.testBit_or, ih, Nat.testBit_two_pow]
    simp [List.mem_cons, eq_comm]

theorem orBits_bitsList (t : Nat) (ht : t < 2 ^ 16) : orBits (bitsList t) = t := by
  apply Nat.eq_of_testBit_eq
  intro j
  rw [orBits_testBit]
  by_cases hj : j < 16
  · simp [bitsList, List.mem_filter, List.mem_range, hj]
  · have h1 : decide (j ∈ bitsList t) = false := by
      simp [bitsList, List.mem_filter, List.mem_range]
      omega
    have h2 : t.testBit j = false :=
      Nat.testBit_lt_two_pow
        (lt_of_lt_of_le ht (Nat.pow_le_pow_right (by norm_num) (by omega)))
    rw [h1, h2]

theorem bitsList_lt (t i : Nat) (h : i ∈ bitsList t) : i < 16 := by
  simp [bitsList, List.mem_filter, List.mem_range] at h
  exact h.1

/-- A truncated shift distributes over bitwise or. -/
theorem shiftLeft_mod_or (a b s : Nat) :
    (((a ||| b) <<< s) % 2 ^ 64) = ((a <<< s) % 2 ^ 64) ||| ((b <<< s) % 2 ^ 64) := by
  apply Nat.eq_of_testBit_eq
  intro j
  simp only [Nat.testBit_mod_two_pow, Nat.testBit_shiftLeft, Nat.testBit_or,
    Bool.and_or_distrib_left]

/-- Bitwise or is rearranged freely. -/
theorem or_or_or (a b c d : Nat) :
    ((a ||| b) ||| (c ||| d)) = ((a ||| c) ||| (b ||| d)) := by
  apply Nat.eq_of_testBit_eq
  intro j
  simp only [Nat.testBit_or]
  cases a.testBit j <;> cases b.testBit j <;> cases c.testBit j <;>
    cases d.testBit j <;> rfl

/-- One magic-number step distributes over bitwise or. -/
theorem spreadStep_lor (s m a b : Nat) :
    ((a ||| b) ||| (((a ||| b) <<< s) % 2 ^ 64)) &&& m =
      ((a ||| ((a <<< s) % 2 ^ 64)) &&& m) ||| ((b ||| ((b <<< s) % 2 ^ 64)) &&& m) := by
  rw [shiftLeft_mod_or, or_or_or, ← Nat.and_distrib_right]

theorem foldl_spreadStep_lor (L : List (Nat × Nat)) :
    ∀ a b : Nat,
      L.foldl (fun x sm => (x ||| ((x <<< sm.1) % 2 ^ 64)) &&& sm.2) (a ||| b) =
        L.foldl (fun x sm => (x ||| ((x <<< sm.1) % 2 ^ 64)) &&& sm.2) a |||
        L.foldl (fun x sm => (x ||| ((x <<< sm.1) % 2 ^ 64)) &&& sm.2) b := by
  induction L with
  | nil => intro a b; rfl
  | cons sm L ih =>
    intro a b
    show L.foldl _ (((a ||| b) ||| (((a ||| b) <<< sm.1) % 2 ^ 64)) &&& sm.2) = _
    rw [spreadStep_lor, ih]
    rfl

/-- The function `spreadCore` distributes over bitwise or. -/
theorem spreadCore_lor (a b : Nat) :
    spreadCore (a ||| b) = spreadCore a ||| spreadCore b :=
  foldl_spreadStep_lor SPREAD_STEPS a b

theorem spreadCore_zero : spreadCore 0 = 0 := rfl

/-- The magic-number loop sends bit `k` to bit `3 * k`, for `k < 16`. -/
theorem spreadCore_pow : ∀ k, k < 16 → spreadCore (2 ^ k) = 2 ^ (3 * k) := by
  decide

theorem spreadCore_orBits (l : List Nat) (hl : ∀ i ∈ l, i < 16) :
    spreadCore (orBits l) = orBits (l.map (fun i => 3 * i)) := by
  induction l with
  | nil => exact spreadCore_zero
  | cons i l ih =>
    show spreadCore (2 ^ i ||| orBits l) = orBits ((i :: l).map (fun i => 3 * i))
    rw [spreadCore_lor, spreadCore_pow i (hl i (by simp)),
      ih (fun j hj => hl j (by simp [hj]))]
    rfl

/-- Every bit of a spread 16-bit value: bit `3 * i` of the result is bit `i`
of the input, and bits at positions not divisible by 3 are clear. -/
theorem spreadCore_testBit (t : Nat) (ht : t < 2 ^ 16) (j : Nat) :
    (spreadCore t).testBit j = (decide (j % 3 = 0) && t.testBit (j / 3)) := by
  have h1 : spreadCore t = orBits ((bitsList t).map (fun i => 3 * i)) := by
    conv_lhs => rw [← orBits_bitsList t ht]
    exact spreadCore_orBits (bitsList t) (bitsList_lt t)
  rw [h1, orBits_testBit]
  by_cases h3 : j % 3 = 0
  · by_cases hlt : j / 3 < 16
    · have hmem : (j ∈ (bitsList t).map (fun i => 3 * i)) ↔ t.testBit (j / 3) = true := by
        simp only [List.mem_map, bitsList, List.mem_filter, List.mem_range]
        constructor
        · rintro ⟨i, ⟨_, hbit⟩, hij⟩
          have : i = j / 3 := by omega
          rw [← this]
          exact hbit
        · intro hbit
          exact ⟨j / 3, ⟨hlt, hbit⟩, by omega⟩
      by_cases hbit : t.testBit (j / 3) = true
      · simp [hmem, hbit, h3]
      · simp only [Bool.not_eq_true] at hbit
        simp [hmem, hbit, h3]
    · have hbit : t.testBit (j / 3) = false :=
        Nat.testBit_lt_two_pow
          (lt_of_lt_of_le ht (Nat.pow_le_pow_right (by norm_num) (by omega)))
      have hmem : ¬(j ∈ (bitsList t).map (fun i => 3 * i)) := by
        simp only [List.mem_map, bitsList, List.mem_filter, List.mem_range]
        rintro ⟨i, ⟨hi, _⟩, hij⟩
        omega
      simp [hmem, hbit]
  · have hmem : ¬(j ∈ (bitsList t).map (fun i => 3 * i)) := by
      simp only [List.mem_map, bitsList, List.mem_filter, List.mem_range]
      rintro ⟨i, _, hij⟩
      omega
    simp [hmem, h3]

/-- The 16-bit two's-complement pattern fed into the spread loop
(`input as u64 & 0xFFFF`). -/
def toU16 (v : Int) : Nat := ((v % 2 ^ 64).toNat) &&& 0xFFFF

theorem spread_bits_eq (v : Int) : spread_bits v = spreadCore (toU16 v) := rfl

theorem toU16_lt (v : Int) : toU16 v < 2 ^ 16 :=
  lt_of_le_of_lt Nat.and_le_right (by norm_num)

/-- Every bit of `spread_bits`. -/
theorem spread_bits_testBit (v : Int) (j : Nat) :
    (spread_bits v).testBit j = (decide (j % 3 = 0) && (toU16 v).testBit (j / 3)) := by
  rw [spread_bits_eq]
  exact spreadCore_testBit (toU16 v) (toU16_lt v) j

/-- Spread values have no bits at position 46 or above. -/
theorem spread_bits_testBit_high (v : Int) (j : Nat) (hj : 46 ≤ j) :
    (spread_bits v).testBit j = false := by
  rw [spread_bits_testBit]
  by_cases h3 : j % 3 = 0
  · have hbit : (toU16 v).testBit (j / 3) = false :=
      Nat.testBit_lt_two_pow
        (lt_of_lt_of_le (toU16_lt v) (Nat.pow_le_pow_right (by norm_num) (by omega)))
    simp [hbit]
  · simp [h3]

theorem key_testBit_x (x y z : Int) (i : Nat) (hi : i < 16) :
    (create_chunk_key x y z).testBit (3 * i + 2) = (toU16 x).testBit i := by
  unfold create_chunk_key
  simp only [Nat.testBit_or, Nat.testBit_mod_two_pow, Nat.testBit_shiftLeft,
    spread_bits_testBit, ge_iff_le]
  have e1 : 3 * i + 2 - 2 = 3 * i := by omega
  have e2 : (3 * i) % 3 = 0 := by omega
  have e3 : (3 * i) / 3 = i := by omega
  have e4 : 3 * i + 2 - 1 = 3 * i + 1 := by omega
  have e5 : ¬((3 * i + 1) % 3 = 0) := by omega
  have e6 : ¬((3 * i + 2) % 3 = 0) := by omega
  have e7 : 3 * i + 2 < 64 := by omega
  have e8 : 2 ≤ 3 * i + 2 := by omega
  have e9 : 1 ≤ 3 * i + 2 := by omega
  simp [e1, e2, e3, e4, e5, e6, e7, e8, e9]

theorem key_testBit_y (x y z : Int) (i : Nat) (hi : i < 16) :
    (create_chunk_key x y z).testBit (3 * i + 1) = (toU16 y).testBit i := by
  unfold create_chunk_key
  simp only [Nat.testBit_or, Nat.testBit_mod_two_pow, Nat.testBit_shiftLeft,
    spread_bits_testBit, ge_iff_le]
  have e1 : 3 * i + 1 - 1 = 3 * i := by omega
  have e2 : (3 * i) % 3 = 0 := by omega
  have e3 : (3 * i) / 3 = i := by omega
  have e6 : ¬((3 * i + 1) % 3 = 0) := by omega
  have e7 : 3 * i + 1 < 64 := by omega
  have e9 : 1 ≤ 3 * i + 1 := by omega
  by_cases h2 : 2 ≤ 3 * i + 1
  · have t2 : ¬((3 * i - 1) % 3 = 0) := by omega
    simp [e1, e2, e3, t2, e6, e7, h2, e9]
  · simp [e1, e2, e3, e6, e7, e9, h2]

theorem key_testBit_z (x y z : Int) (i : Nat) (hi : i < 16) :
    (create_chunk_key x y z).testBit (3 * i) = (toU16 z).testBit i := by
  unfold create_chunk_key
  simp only [Nat.testBit_or, Nat.testBit_mod_two_pow, Nat.testBit_shiftLeft,
    spread_bits_testBit, ge_iff_le]
  have e2 : (3 * i) % 3 = 0 := by omega
  have e3 : (3 * i) / 3 = i := by omega
  have e7 : 3 * i < 64 := by omega
  have e5 : ∀ k, 2 ≤ 3 * i → 3 * i - 2 = k → ¬(k % 3 = 0) := by omega
  have e6 : ∀ k, 1 ≤ 3 * i → 3 * i - 1 = k → ¬(k % 3 = 0) := by omega
  by_cases h2 : 2 ≤ 3 * i <;> by_cases h1 : 1 ≤ 3 * i
  · have t2 := e5 (3 * i - 2) h2 rfl
    have t1 := e6 (3 * i - 1) h1 rfl
    simp [e2, e3, t2, t1, e7, h2, h1]
  · omega
  · omega
  · simp [e2, e3, e7, h2, h1]

theorem toU16_eq_mod (v : Int) :
    toU16 v = (v % 18446744073709551616).toNat % 65536 := by
  unfold toU16
  rw [show (0xFFFF : Nat) = 2 ^ 16 - 1 by norm_num,
    Nat.and_pow_two_sub_one_eq_mod]
  norm_num

/-- The two's-complement 16-bit pattern determines a signed 16-bit value. -/
theorem toU16_inj (a b : Int) (ha1 : -32768 ≤ a) (ha2 : a < 32768)
    (hb1 : -32768 ≤ b) (hb2 : b < 32768) (h : toU16 a = toU16 b) : a = b := by
  rw [toU16_eq_mod, toU16_eq_mod] at h
  omega

/-- C4: the key encoder is injective over the full signed-16-bit coordinate
space: distinct coordinates always receive distinct 64-bit keys. -/
theorem create_chunk_key_inj (x1 y1 z1 x2 y2 z2 : Int)
    (hx1 : -32768 ≤ x1 ∧ x1 < 32768) (hy1 : -32768 ≤ y1 ∧ y1 < 32768)
    (hz1 : -32768 ≤ z1 ∧ z1 < 32768) (hx2 : -32768 ≤ x2 ∧ x2 < 32768)
    (hy2 : -32768 ≤ y2 ∧ y2 < 32768) (hz2 : -32768 ≤ z2 ∧ z2 < 32768)
    (hk : create_chunk_key x1 y1 z1 = create_chunk_key x2 y2 z2) :
    x1 = x2 ∧ y1 = y2 ∧ z1 = z2 := by
  have hbit : ∀ v : Int, ∀ i, ¬(i < 16) → (toU16 v).testBit i = false := by
    intro v i hi
    exact Nat.testBit_lt_two_pow
      (lt_of_lt_of_le (toU16_lt v) (Nat.pow_le_pow_right (by norm_num) (by omega)))
  refine ⟨?_, ?_, ?_⟩
  · apply toU16_inj x1 x2 hx1.1 hx1.2 hx2.1 hx2.2
    apply Nat.eq_of_testBit_eq
    intro i
    by_cases hi : i < 16
    · rw [← key_testBit_x x1 y1 z1 i hi, ← key_testBit_x x2 y2 z2 i hi, hk]
    · rw [hbit x1 i hi, hbit x2 i hi]
  · apply toU16_inj y1 y2 hy1.1 hy1.2 hy2.1 hy2.2
    apply Nat.eq_of_testBit_eq
    intro i
    by_cases hi : i < 16
    · rw [← key_testBit_y x1 y1 z1 i hi, ← key_testBit_y x2 y2 z2 i hi, hk]
    · rw [hbit y1 i hi, hbit y2 i hi]
  · apply toU16_inj z1 z2 hz1.1 hz1.2 hz2.1 hz2.2
    apply Nat.eq_of_testBit_eq
    intro i
    by_cases hi : i < 16
    · rw [← key_testBit_z x1 y1 z1 i hi, ← key_testBit_z x2 y2 z2 i hi, hk]
    · rw [hbit z1 i hi, hbit z2 i hi]

/-- C4 witness: the theorem applied at the concrete coordinate pair
`(1, -2, 3)`, `(1, -2, 3)`. -/
theorem create_chunk_key_inj_witness :
    (1 : Int) = 1 ∧ (-2 : Int) = -2 ∧ (3 : Int) = 3 :=
  create_chunk_key_inj 1 (-2) 3 1 (-2) 3 (by norm_num) (by norm_num)
    (by norm_num) (by norm_num) (by norm_num) (by norm_num) rfl

/-- Every bit of a key at position 48 or above is clear. -/
theorem key_testBit_high (x y z : Int) (j : Nat) (hj : j ≥ 48) :
    (create_chunk_key x y z).testBit j = false := by
  unfold create_chunk_key
  simp only [Nat.testBit_or, Nat.testBit_mod_two_pow, Nat.testBit_shiftLeft,
    ge_iff_le]
  rw [spread_bits_testBit_high x (j - 2) (by omega),
    spread_bits_testBit_high y (j - 1) (by omega),
    spread_bits_testBit_high z j (by omega)]
  simp

/-- C10: every key is strictly below `2 ^ 48`; bit `i` of each 16-bit axis
pattern lands at the spread position `3 * i`; the three shifted spread
fields occupy pairwise disjoint bit positions; and the two most-significant
bytes of the key's little-endian representation are always zero. -/
theorem create_chunk_key_range (x y z : Int) :
    create_chunk_key x y z < 2 ^ 48 ∧
    (∀ i, i < 16 → (spread_bits x).testBit (3 * i) = (toU16 x).testBit i) ∧
    ((spread_bits x <<< 2) % 2 ^ 64) &&& ((spread_bits y <<< 1) % 2 ^ 64) = 0 ∧
    ((spread_bits x <<< 2) % 2 ^ 64) &&& spread_bits z = 0 ∧
    ((spread_bits y <<< 1) % 2 ^ 64) &&& spread_bits z = 0 ∧
    TerrainDiskStorage.keyByte (create_chunk_key x y z) 6 = 0 ∧
    TerrainDiskStorage.keyByte (create_chunk_key x y z) 7 = 0 := by
  have hlt : create_chunk_key x y z < 2 ^ 48 :=
    Nat.lt_pow_two_of_testBit _ (fun j hj => key_testBit_high x y z j hj)
  have hbyte : ∀ j, 6 ≤ j → TerrainDiskStorage.keyByte (create_chunk_key x y z) j = 0 := by
    intro j hj
    unfold TerrainDiskStorage.keyByte
    rw [Nat.shiftRight_eq_div_pow]
    have hle : 2 ^ 48 ≤ 2 ^ (8 * j) := Nat.pow_le_pow_right (by norm_num) (by omega)
    rw [Nat.div_eq_of_lt (lt_of_lt_of_le hlt hle)]
  refine ⟨hlt, ?_, ?_, ?_, ?_, hbyte 6 (by norm_num), hbyte 7 (by norm_num)⟩
  · intro i hi
    rw [spread_bits_testBit]
    have e2 : (3 * i) % 3 = 0 := by omega
    have e3 : (3 * i) / 3 = i := by omega
    simp [e2, e3]
  · apply Nat.eq_of_testBit_eq
    intro j
    simp only [Nat.testBit_and, Nat.testBit_mod_two_pow, Nat.testBit_shiftLeft,
      spread_bits_testBit, ge_iff_le, Nat.zero_testBit]
    by_cases h2 : 2 ≤ j
    · by_cases hm : (j - 2) % 3 = 0
      · have hm1 : ¬((j - 1) % 3 = 0) := by omega
        simp [hm, hm1]
      · simp [hm]
    · simp [h2]
  · apply Nat.eq_of_testBit_eq
    intro j
    simp only [Nat.testBit_and, Nat.testBit_mod_two_pow, Nat.testBit_shiftLeft,
      spread_bits_testBit, ge_iff_le, Nat.zero_testBit]
    by_cases h2 : 2 ≤ j
    · by_cases hm : (j - 2) % 3 = 0
      · have hm1 : ¬(j % 3 = 0) := by omega
        simp [hm, hm1]
      · simp [hm]
    · simp [h2]
  · apply Nat.eq_of_testBit_eq
    intro j
    simp only [Nat.testBit_and, Nat.testBit_mod_two_pow, Nat.testBit_shiftLeft,
      spread_bits_testBit, ge_iff_le, Nat.zero_testBit]
    by_cases h1 : 1 ≤ j
    · by_cases hm : (j - 1) % 3 = 0
      · have hm1 : ¬(j % 3 = 0) := by omega
        simp [hm, hm1]
      · simp [hm]
    · simp [h1]

/-! ## Error safety of `get_or_create_chunk_address` (failure injection)

Every pointer recorded during a call — even one that ends in an I/O
error — refers to an allocation whose file growth has already succeeded,
and the call's writes are exactly the logged `set_pointer`s. -/

/-- Replay a write log onto an index memory, earliest write first. -/
def applyLog (log : List PtrWrite) (m : Mem) : Mem :=
  log.foldl (fun mm e => IndexNode.set_pointer mm e.parent e.digit e.target) m

theorem createWalk_cons_align_fail (g : GrowOracle) (s : TerrainDiskStorage)
    (node d : Nat) (rest : List Nat) (ha : ¬(node &&& 0xFF = 0)) :
    TerrainDiskStorage.createWalk g s node (d :: rest) = (.error (), s, []) := by
  rw [TerrainDiskStorage.createWalk, if_neg ha]

theorem createWalk_cons_grow_fail (g : GrowOracle) (s : TerrainDiskStorage)
    (node d : Nat) (rest : List Nat) (ha : node &&& 0xFF = 0)
    (hp : IndexNode.get_pointer s.indexMem node d = none)
    (hnn : TerrainDiskStorage.new_node g s = .error ()) :
    TerrainDiskStorage.createWalk g s node (d :: rest) = (.error (), s, []) := by
  rw [TerrainDiskStorage.createWalk, if_pos ha, hp, hnn]

theorem createWalk_cons_none_proj (g : GrowOracle) (s : TerrainDiskStorage)
    (node d : Nat) (rest : List Nat) (a : Nat) (s1 : TerrainDiskStorage)
    (ha : node &&& 0xFF = 0)
    (hp : IndexNode.get_pointer s.indexMem node d = none)
    (hnn : TerrainDiskStorage.new_node g s = .ok (a, s1)) :
    TerrainDiskStorage.createWalk g s node (d :: rest) =
      ((TerrainDiskStorage.createWalk g
          (TerrainDiskStorage.setNodePointer s1 node d a) a rest).1,
       (TerrainDiskStorage.createWalk g
          (TerrainDiskStorage.setNodePointer s1 node d a) a rest).2.1,
       ⟨node, d, a, false⟩ ::
         (TerrainDiskStorage.createWalk g
           (TerrainDiskStorage.setNodePointer s1 node d a) a rest).2.2) := by
  rw [createWalk_cons_none g s node d rest a s1 ha hp hnn]

/-- The walk invariants: the chunk file is untouched, the index file only
grows, every logged pointer targets a node region lying wholly inside the
final index file, and the final index memory is exactly the replay of the
log. -/
theorem createWalk_invariants (g : GrowOracle) :
    ∀ (ds : List Nat) (s : TerrainDiskStorage) (node : Nat),
      (TerrainDiskStorage.createWalk g s node ds).2.1.chunkLen = s.chunkLen ∧
      s.indexLen ≤ (TerrainDiskStorage.createWalk g s node ds).2.1.indexLen ∧
      (∀ e ∈ (TerrainDiskStorage.createWalk g s node ds).2.2,
        e.toChunk = false ∧
        e.target + NODE_LENGTH ≤
          (TerrainDiskStorage.createWalk g s node ds).2.1.indexLen) ∧
      (TerrainDiskStorage.createWalk g s node ds).2.1.indexMem =
        applyLog (TerrainDiskStorage.createWalk g s node ds).2.2 s.indexMem := by
  intro ds
  induction ds with
  | nil =>
    intro s node
    exact ⟨rfl, le_refl _, by simp [createWalk_nil], rfl⟩
  | cons d rest ih =>
    intro s node
    by_cases ha : node &&& 0xFF = 0
    · cases hp : IndexNode.get_pointer s.indexMem node d with
      | some a =>
        rw [createWalk_cons_found g s node d rest a ha hp]
        exact ih s a
      | none =>
        cases hg : g s.growCount with
        | true =>
          have hnn : TerrainDiskStorage.new_node g s = .error () := by
            simp [TerrainDiskStorage.new_node, hg]
          rw [createWalk_cons_grow_fail g s node d rest ha hp hnn]
          exact ⟨rfl, le_refl _, by simp, rfl⟩
        | false =>
          have hnn : TerrainDiskStorage.new_node g s =
              .ok (s.indexLen,
                { s with indexLen := s.indexLen + NODE_LENGTH,
                         growCount := s.growCount + 1 }) := by
            simp [TerrainDiskStorage.new_node, hg]
          rw [createWalk_cons_none_proj g s node d rest s.indexLen _ ha hp hnn]
          obtain ⟨h1, h2, h3, h4⟩ := ih
            (TerrainDiskStorage.setNodePointer
              { s with indexLen := s.indexLen + NODE_LENGTH,
                       growCount := s.growCount + 1 } node d s.indexLen)
            s.indexLen
          refine ⟨by rw [h1]; rfl, le_trans (Nat.le_add_right _ _) h2, ?_, ?_⟩
          · intro e he
            rcases List.mem_cons.mp he with rfl | htail
            · exact ⟨rfl, h2⟩
            · exact h3 e htail
          · rw [h4]
            rfl
    · rw [createWalk_cons_align_fail g s node d rest ha]
      exact ⟨rfl, le_refl _, by simp, rfl⟩

theorem goc_address_walk_error (g : GrowOracle) (s : TerrainDiskStorage)
    (key : Nat) (s1 : TerrainDiskStorage) (log : List PtrWrite)
    (hw : TerrainDiskStorage.createWalk g s 0
      [TerrainDiskStorage.keyByte key 3, TerrainDiskStorage.keyByte key 4,
       TerrainDiskStorage.keyByte key 5, TerrainDiskStorage.keyByte key 6] =
      (.error (), s1, log)) :
    TerrainDiskStorage.get_or_create_chunk_address g s key = (.error (), s1, log) := by
  unfold TerrainDiskStorage.get_or_create_chunk_address
  rw [hw]

theorem goc_address_align_fail (g : GrowOracle) (s : TerrainDiskStorage)
    (key node : Nat) (s1 : TerrainDiskStorage) (log : List PtrWrite)
    (hw : TerrainDiskStorage.createWalk g s 0
      [TerrainDiskStorage.keyByte key 3, TerrainDiskStorage.keyByte key 4,
       TerrainDiskStorage.keyByte key 5, TerrainDiskStorage.keyByte key 6] =
      (.ok node, s1, log))
    (ha : ¬(node &&& 0xFF = 0)) :
    TerrainDiskStorage.get_or_create_chunk_address g s key = (.error (), s1, log) := by
  unfold TerrainDiskStorage.get_or_create_chunk_address
  rw [hw]
  simp only []
  rw [if_neg ha]

theorem goc_address_chunk_grow_fail (g : GrowOracle) (s : TerrainDiskStorage)
    (key node : Nat) (s1 : TerrainDiskStorage) (log : List PtrWrite)
    (hw : TerrainDiskStorage.createWalk g s 0
      [TerrainDiskStorage.keyByte key 3, TerrainDiskStorage.keyByte key 4,
       TerrainDiskStorage.keyByte key 5, TerrainDiskStorage.keyByte key 6] =
      (.ok node, s1, log))
    (ha : node &&& 0xFF = 0)
    (hp : IndexNode.get_pointer s1.indexMem node (TerrainDiskStorage.keyByte key 7) =
      none)
    (hnc : TerrainDiskStorage.new_chunk g s1 = .error ()) :
    TerrainDiskStorage.get_or_create_chunk_address g s key = (.error (), s1, log) := by
  unfold TerrainDiskStorage.get_or_create_chunk_address
  rw [hw]
  simp only []
  rw [if_pos ha, hp]
  simp only []
  rw [hnc]

/-- C8: if a file-growth operation inside `get_or_create_chunk` fails, the
call returns the error, and every index-node slot written during the call
records a node allocation whose file growth had already fully succeeded —
its whole node region lies inside the index file — and no chunk pointer was
recorded at all; moreover the final index memory is exactly the replay of
the logged writes, so no other slot was touched. A pointer is recorded in
its parent only after its allocation's growth succeeded. -/
theorem goc_error_no_dangling (g : GrowOracle) (s : TerrainDiskStorage) (key : Nat)
    (herr : (TerrainDiskStorage.get_or_create_chunk_address g s key).1 = .error ()) :
    (∀ e ∈ (TerrainDiskStorage.get_or_create_chunk_address g s key).2.2,
      e.toChunk = false ∧
      e.target + NODE_LENGTH ≤
        (TerrainDiskStorage.get_or_create_chunk_address g s key).2.1.indexLen) ∧
    (TerrainDiskStorage.get_or_create_chunk_address g s key).2.1.indexMem =
      applyLog (TerrainDiskStorage.get_or_create_chunk_address g s key).2.2
        s.indexMem := by
  obtain ⟨hcl, hmono, hlog, hmem⟩ := createWalk_invariants g
    [TerrainDiskStorage.keyByte key 3, TerrainDiskStorage.keyByte key 4,
     TerrainDiskStorage.keyByte key 5, TerrainDiskStorage.keyByte key 6] s 0
  rcases hw : TerrainDiskStorage.createWalk g s 0
      [TerrainDiskStorage.keyByte key 3, TerrainDiskStorage.keyByte key 4,
       TerrainDiskStorage.keyByte key 5, TerrainDiskStorage.keyByte key 6] with
    ⟨r, s1, log⟩
  rw [hw] at hcl hmono hlog hmem
  cases r with
  | error e =>
    cases e
    rw [goc_address_walk_error g s key s1 log hw]
    exact ⟨hlog, hmem⟩
  | ok node =>
    by_cases ha : node &&& 0xFF = 0
    · cases hp : IndexNode.get_pointer s1.indexMem node
          (TerrainDiskStorage.keyByte key 7) with
      | some a =>
        rw [goc_address_found g s key node s1 log a hw ha hp] at herr
        exact absurd herr (by simp)
      | none =>
        cases hg : g s1.growCount with
        | true =>
          have hnc : TerrainDiskStorage.new_chunk g s1 = .error () := by
            simp [TerrainDiskStorage.new_chunk, hg]
          rw [goc_address_chunk_grow_fail g s key node s1 log hw ha hp hnc]
          exact ⟨hlog, hmem⟩
        | false =>
          have hnc : TerrainDiskStorage.new_chunk g s1 =
              .ok ((if s1.chunkLen = 1 then 0 else s1.chunkLen) >>> 4,
                { s1 with
                    chunkLen := (if s1.chunkLen = 1 then 0 else s1.chunkLen) +
                      CHUNK_LENGTH,
                    growCount := s1.growCount + 1 }) := by
            simp [TerrainDiskStorage.new_chunk, hg]
          rw [goc_address_created g s key node s1 log _ _ hw ha hp hnc] at herr
          exact absurd herr (by simp)
    · rw [goc_address_align_fail g s key node s1 log hw ha]
      exact ⟨hlog, hmem⟩

/-- C8 witness: on a fresh store with an oracle that fails the second file
growth, the call for key 0 errors out after one successful node
allocation; the single logged write records node `2048`, which lies wholly
inside the grown index file, and the index memory is exactly that write. -/
theorem goc_error_no_dangling_witness :
    (∀ e ∈ (TerrainDiskStorage.get_or_create_chunk_address
        (fun n => decide (1 ≤ n)) freshStorage 0).2.2,
      e.toChunk = false ∧
      e.target + NODE_LENGTH ≤
        (TerrainDiskStorage.get_or_create_chunk_address
          (fun n => decide (1 ≤ n)) freshStorage 0).2.1.indexLen) ∧
    (TerrainDiskStorage.get_or_create_chunk_address
        (fun n => decide (1 ≤ n)) freshStorage 0).2.1.indexMem =
      applyLog (TerrainDiskStorage.get_or_create_chunk_address
          (fun n => decide (1 ≤ n)) freshStorage 0).2.2
        freshStorage.indexMem :=
  goc_error_no_dangling (fun n => decide (1 ≤ n)) freshStorage 0 rfl

end GridEngine
